import Mathlib

/-!
# Avogadro `ColorOpacityMap` plugin: volume layout conversion and surface binding

A shallow embedding of `avogadro/qtplugins/coloropacitymap/coloropacitymap.cpp`:

* `cubeImageData`, the loop nest that reorders a `Core::Cube` into the Fortran
  ordering of a `vtkImageData`;
* the `ColorOpacityMap` extension object, as explicit state passing: its members,
  the table of Qt signal/slot connections whose receiver is the plugin, and a
  log of the calls it makes on its collaborators.
-/

namespace Avogadro

/-! ## Part 1: `cubeImageData` -/

/-- The part of `Core::Cube` that `cubeImageData` reads: `dimensions()` (an
`Eigen::Vector3i`, here three naturals), `min()`, `spacing()` and `data()`.
Samples have type `α`, coordinates type `ρ`; both are only copied. -/
structure Cube (α ρ : Type) where
  dimensions : Nat × Nat × Nat
  min : ρ × ρ × ρ
  spacing : ρ × ρ × ρ
  data : Array α

/-- The part of `vtkImageData` that `cubeImageData` fills in. A cell of
`scalars` is `none` while it still holds the indeterminate content left by
`AllocateScalars`. -/
structure VtkImageData (α ρ : Type) where
  extent : (Int × Int) × (Int × Int) × (Int × Int)
  origin : ρ × ρ × ρ
  spacing : ρ × ρ × ρ
  scalars : Array (Option α)

/-- The value of an expression of C type `int`: results outside the range of a
32-bit `int` are undefined behaviour, rendered as `none`. -/
def intResult (n : Nat) : Option Nat :=
  if n < 2 ^ 31 then some n else none

/-- The `int` expression `(a * B + b) * C + c`, the shape of both index
expressions in the loop body of `cubeImageData`. -/
def intIndex (a B b C c : Nat) : Option Nat := do
  let p ← intResult (a * B)
  let q ← intResult (p + b)
  let r ← intResult (q * C)
  intResult (r + c)

/-- Index of sample `(i, j, k)` in the cube's own vector:
`(i * dim.y() + j) * dim.z() + k`. -/
def cubeIndex (dim : Nat × Nat × Nat) (i j k : Nat) : Nat :=
  (i * dim.2.1 + j) * dim.2.2 + k

/-- Index of sample `(i, j, k)` in the VTK buffer:
`(k * dim.y() + j) * dim.x() + i`. -/
def vtkIndex (dim : Nat × Nat × Nat) (i j k : Nat) : Nat :=
  (k * dim.2.1 + j) * dim.1 + i

/-- The body of the innermost loop:
`dataPtr[(k * dim.y() + j) * dim.x() + i] = (*cubePtr)[(i * dim.y() + j) * dim.z() + k]`.
An out-of-range read or write (undefined in C++) yields `none`. -/
def copySample {α : Type} (dim : Nat × Nat × Nat) (cubePtr : Array α)
    (i j k : Nat) (dataPtr : Array (Option α)) : Option (Array (Option α)) := do
  let dst ← intIndex k dim.2.1 j dim.1 i
  let src ← intIndex i dim.2.1 j dim.2.2 k
  let v ← cubePtr[src]?
  if h : dst < dataPtr.size then some (dataPtr.set ⟨dst, h⟩ (some v)) else none

/-- The three nested `for` loops of `cubeImageData`, `i` outermost and `k`
innermost. -/
def reorderLoops {α : Type} (dim : Nat × Nat × Nat) (cubePtr : Array α)
    (dataPtr : Array (Option α)) : Option (Array (Option α)) :=
  (List.range dim.1).foldlM (fun buf i =>
    (List.range dim.2.1).foldlM (fun buf j =>
      (List.range dim.2.2).foldlM (fun buf k =>
        copySample dim cubePtr i j k buf) buf) buf) dataPtr

/-- `cubeImageData(Core::Cube* cube)`: allocate an image of the cube's extent,
copy origin and spacing, then run the reordering loops. -/
def cubeImageData {α ρ : Type} (cube : Cube α ρ) : Option (VtkImageData α ρ) :=
  let dim := cube.dimensions
  let dataPtr : Array (Option α) := mkArray (dim.1 * dim.2.1 * dim.2.2) none
  (reorderLoops dim cube.data dataPtr).map fun buf =>
    { extent := ((0, (dim.1 : Int) - 1), (0, (dim.2.1 : Int) - 1), (0, (dim.2.2 : Int) - 1))
      origin := cube.min
      spacing := cube.spacing
      scalars := buf }

/-- The iteration space of the loop nest, in execution order. -/
def loopNest (dim : Nat × Nat × Nat) : List (Nat × Nat × Nat) :=
  (List.range dim.1).flatMap fun i =>
    (List.range dim.2.1).flatMap fun j =>
      (List.range dim.2.2).map fun k => (i, j, k)

/-- The iterations of the loop nest in execution order, each as the pair of
the two `int` index expressions the body evaluates: (index read in the cube,
index written in the VTK buffer). A component is `none` when the expression
overflows `int`. -/
def sampleMoves (dim : Nat × Nat × Nat) : List (Option Nat × Option Nat) :=
  (loopNest dim).map fun t =>
    (intIndex t.1 dim.2.1 t.2.1 dim.2.2 t.2.2, intIndex t.2.2 dim.2.1 t.2.1 dim.1 t.1)

/-! ## Part 2: the `ColorOpacityMap` extension -/

/-- A `QWidget*` as returned by `ActiveObjects::instance().activeWidget()`:
the address of the object and whether its dynamic type is
`VTK::vtkGLWidget`, which is what `qobject_cast<VTK::vtkGLWidget*>` tests. -/
structure QWidget where
  addr : Nat
  isVtkGLWidget : Bool
deriving DecidableEq

/-- A `QtGui::Molecule*`, identified by its address. -/
structure Molecule where
  addr : Nat
deriving DecidableEq

/-- The two `Molecule::MoleculeChange` enumerators that `moleculeChanged`
tests. Their values are declared in `avogadro/qtgui/molecule.h`, which is not
among the sources, so they are a parameter of the model. -/
structure MoleculeChange where
  Added : Nat
  Removed : Nat

/-- What the plugin sets and reads on a `QAction`. -/
structure QAction where
  text : String
  menuPriority : Nat
  enabled : Bool
deriving DecidableEq

/-- The objects whose signals are connected to the plugin. -/
inductive Sender where
  | displayDialogAction
  | molecule (m : Molecule)
  | widget (w : QWidget)
  | histogramWidget
  | comDialog
deriving DecidableEq

/-- The signals the plugin connects to. -/
inductive Signal where
  | triggered
  | changed
  | imageDataUpdated
  | colorMapUpdated
  | opacityChanged
  | renderNeeded
deriving DecidableEq

/-- The slots of the plugin that are connection targets. -/
inductive Slot where
  | displayDialog
  | moleculeChanged
  | updateHistogram
  | render
deriving DecidableEq

/-- One live Qt connection whose receiver is the plugin. -/
structure Connection where
  sender : Sender
  signal : Signal
  slot : Slot
deriving DecidableEq

/-- Entries of the call log. `updateHistogram` records an entry into the slot
of that name and `newComDialog` the execution of `new ComDialog(p)`; the others
record a call the plugin makes on a collaborator, with the widget it concerns. -/
inductive Call where
  | updateHistogram
  | newComDialog
  | setLUT (w : QWidget)
  | setOpacityFunction (w : QWidget)
  | populateHistogram (w : QWidget)
  | setInputData (w : QWidget)
  | renderWindowRender (w : QWidget)
  | update (w : QWidget)
  | showDialog
deriving DecidableEq

/-- The `HistogramWidget` owned by the dialog (a handle; its content is
observed through the call log). -/
inductive HistogramWidget where
  | ofComDialog
deriving DecidableEq

/-- The `ComDialog` editor: the molecule it was given and whether it is shown. -/
structure ComDialog where
  molecule : Option Molecule
  visible : Bool
deriving DecidableEq

/-- Modelled from the spec: `ComDialog::histogramWidget()` lives in
`comdialog.cpp`, which is not among the sources. The editor is created together
with its histogram widget, so the accessor returns that widget. -/
def ComDialog.histogramWidget (_d : ComDialog) : Option HistogramWidget :=
  some HistogramWidget.ofComDialog

/-- What the plugin reads from its surroundings during one call: the active
widget of the `ActiveObjects` singleton, the current `cubeCount()` of each
molecule, and whether `imageData()` of a widget is non-null. -/
structure Env where
  activeWidget : Option QWidget
  cubeCount : Molecule → Nat
  imageData : QWidget → Bool

/-- The plugin object: its data members, the connections whose receiver it is,
the call log, and a flag raised when a null `m_histogramWidget` is
dereferenced. The action held by `m_displayDialogAction` is the single element
of `m_actions`. -/
structure ColorOpacityMap where
  m_actions : List QAction
  m_molecule : Option Molecule
  m_comDialog : Option ComDialog
  m_histogramWidget : Option HistogramWidget
  m_activeWidget : Option QWidget
  connections : List Connection
  log : List Call
  nullDeref : Bool

/-- `QAction::setEnabled`. -/
def QAction.setEnabled (a : QAction) (b : Bool) : QAction :=
  { a with enabled := b }

/-- `qobject_cast<VTK::vtkGLWidget*>(widget)`: the widget itself when it is a
`vtkGLWidget`, null otherwise (also for a null argument). -/
def qobject_cast_vtkGLWidget (widget : Option QWidget) : Option QWidget :=
  match widget with
  | some w => if w.isVtkGLWidget then some w else none
  | none => none

/-- `QObject::disconnect(sender, nullptr, this, nullptr)`, also
`sender->disconnect(this)`: drop every connection from `sender` to the plugin. -/
def disconnect (sender : Sender) (cs : List Connection) : List Connection :=
  cs.filter fun c => decide (c.sender ≠ sender)

/-- `QObject::connect(sender, signal, this, slot)`: Qt adds a connection even
when an equal one exists. -/
def connect (sender : Sender) (signal : Signal) (slot : Slot)
    (cs : List Connection) : List Connection :=
  cs ++ [{ sender := sender, signal := signal, slot := slot }]

/-- Number of live connections from `imageDataUpdated()` of widget `w` to the
slot `updateHistogram()`. -/
def subscriptions (s : ColorOpacityMap) (w : QWidget) : Nat :=
  s.connections.count
    { sender := Sender.widget w, signal := Signal.imageDataUpdated, slot := Slot.updateHistogram }

/-- `ColorOpacityMap::updateActions()`. -/
def updateActions (env : Env) (s : ColorOpacityMap) : ColorOpacityMap :=
  let widget := env.activeWidget
  let vtkWidget := qobject_cast_vtkGLWidget widget
  match vtkWidget, s.m_molecule with
  | some _, some m =>
    if env.cubeCount m = 0 then
      { s with m_actions := s.m_actions.map fun action => action.setEnabled false }
    else
      { s with m_actions := s.m_actions.map fun action => action.setEnabled true }
  | _, _ => { s with m_actions := s.m_actions.map fun action => action.setEnabled false }

/-- First `if` statement of `updateHistogram()`: rebind the
`imageDataUpdated()` subscription when the active widget is a `vtkGLWidget`
other than `m_activeWidget`. The `disconnect` call names `widget`, the newly
active widget, as the source does. -/
def rebindActiveWidget (env : Env) (s : ColorOpacityMap) : ColorOpacityMap :=
  let widget := env.activeWidget
  let vtkWidget := qobject_cast_vtkGLWidget widget
  match widget, vtkWidget with
  | some w, some _ =>
    if some w ≠ s.m_activeWidget then
      let cs := if s.m_activeWidget.isSome then disconnect (Sender.widget w) s.connections
                else s.connections
      { s with
        connections := connect (Sender.widget w) Signal.imageDataUpdated Slot.updateHistogram cs
        m_activeWidget := some w }
    else s
  | _, _ => s

/-- Second `if` statement of `updateHistogram()`: push look-up table, opacity
function and, when image data is available, the recomputed histogram to
`m_histogramWidget`. Calling through a null `m_histogramWidget` raises
`nullDeref`. -/
def pushHistogram (env : Env) (s : ColorOpacityMap) : ColorOpacityMap :=
  let widget := env.activeWidget
  let vtkWidget := qobject_cast_vtkGLWidget widget
  match vtkWidget, s.m_molecule with
  | some v, some m =>
    if env.cubeCount m ≠ 0 then
      match s.m_histogramWidget with
      | none => { s with nullDeref := true }
      | some _ =>
        let s := { s with log := s.log ++ [Call.setLUT v, Call.setOpacityFunction v] }
        if env.imageData v then
          { s with log := s.log ++ [Call.populateHistogram v, Call.setInputData v] }
        else s
    else s
  | _, _ => s

/-- `ColorOpacityMap::updateHistogram()`: its two `if` statements in sequence,
after the entry has been logged. -/
def updateHistogram (env : Env) (s : ColorOpacityMap) : ColorOpacityMap :=
  pushHistogram env (rebindActiveWidget env { s with log := s.log ++ [Call.updateHistogram] })

/-- `ColorOpacityMap::setMolecule(QtGui::Molecule* mol)`. -/
def setMolecule (env : Env) (mol : Option Molecule) (s : ColorOpacityMap) : ColorOpacityMap :=
  if s.m_molecule = mol then s
  else
    let cs := match s.m_molecule with
      | some old => disconnect (Sender.molecule old) s.connections
      | none => s.connections
    let cs := match mol with
      | some m => connect (Sender.molecule m) Signal.changed Slot.moleculeChanged cs
      | none => cs
    updateActions env { s with m_molecule := mol, connections := cs }

/-- `ColorOpacityMap::moleculeChanged(unsigned int c)`. -/
def moleculeChanged (mc : MoleculeChange) (env : Env) (c : Nat)
    (s : ColorOpacityMap) : ColorOpacityMap :=
  match s.m_comDialog with
  | none => s
  | some _ =>
    if c &&& mc.Added ≠ 0 ∨ c &&& mc.Removed ≠ 0 then
      updateHistogram env (updateActions env s)
    else s

/-- `ColorOpacityMap::displayDialog()`. -/
def displayDialog (env : Env) (s : ColorOpacityMap) : ColorOpacityMap :=
  let s :=
    match s.m_comDialog with
    | none =>
      let dialog : ComDialog := { molecule := s.m_molecule, visible := false }
      { s with
        m_comDialog := some dialog
        m_histogramWidget := dialog.histogramWidget
        connections :=
          connect Sender.comDialog Signal.renderNeeded Slot.render
            (connect Sender.histogramWidget Signal.opacityChanged Slot.render
              (connect Sender.histogramWidget Signal.colorMapUpdated Slot.render s.connections))
        log := s.log ++ [Call.newComDialog] }
    | some _ => s
  let s := updateHistogram env s
  { s with
    m_comDialog := s.m_comDialog.map fun d => { d with visible := true }
    log := s.log ++ [Call.showDialog] }

/-- `ColorOpacityMap::render()`. -/
def render (env : Env) (s : ColorOpacityMap) : ColorOpacityMap :=
  let widget := env.activeWidget
  let vtkWidget := qobject_cast_vtkGLWidget widget
  match vtkWidget with
  | some v => { s with log := s.log ++ [Call.renderWindowRender v, Call.update v] }
  | none => s

/-- Delivery of `imageDataUpdated()` emitted by widget `w`: the connected slot
`updateHistogram()` runs once per connection that is live when the signal is
emitted. -/
def imageDataUpdated (env : Env) (w : QWidget) (s : ColorOpacityMap) : ColorOpacityMap :=
  (updateHistogram env)^[subscriptions s w] s

/-- The constructor `ColorOpacityMap::ColorOpacityMap(QObject* p)`. The pointer
members start out null (their initialisers are in `coloropacitymap.h`, not
among the sources; the spec's initial state is `Unbound` with no editor). -/
def ColorOpacityMap.new (env : Env) : ColorOpacityMap :=
  let m_displayDialogAction : QAction :=
    { text := "Edit Color Opacity Map…", menuPriority := 70, enabled := true }
  updateActions env
    { m_actions := [m_displayDialogAction]
      m_molecule := none
      m_comDialog := none
      m_histogramWidget := none
      m_activeWidget := none
      connections := connect Sender.displayDialogAction Signal.triggered Slot.displayDialog []
      log := []
      nullDeref := false }

/-- The ways the plugin is entered after construction, each with what it reads
from its surroundings at that moment. -/
inductive Event where
  | setMolecule (env : Env) (mol : Option Molecule)
  | moleculeChanged (env : Env) (c : Nat)
  | displayDialog (env : Env)
  | render (env : Env)
  | imageDataUpdated (env : Env) (w : QWidget)

/-- Run the handler of one event. -/
def step (mc : MoleculeChange) (e : Event) (s : ColorOpacityMap) : ColorOpacityMap :=
  match e with
  | Event.setMolecule env mol => setMolecule env mol s
  | Event.moleculeChanged env c => moleculeChanged mc env c s
  | Event.displayDialog env => displayDialog env s
  | Event.render env => render env s
  | Event.imageDataUpdated env w => imageDataUpdated env w s

/-- States the plugin can be in: after construction and any sequence of events. -/
inductive Reachable (mc : MoleculeChange) : ColorOpacityMap → Prop where
  | new (env : Env) : Reachable mc (ColorOpacityMap.new env)
  | step (e : Event) {s : ColorOpacityMap} : Reachable mc s → Reachable mc (step mc e s)

/-- The enabled/disabled policy in the words of the spec: there is a
volume-capable active surface, a model is attached, and that model has at least
one scalar field. -/
def EnabledPolicy (env : Env) (mol : Option Molecule) : Prop :=
  (∃ w, env.activeWidget = some w ∧ w.isVtkGLWidget = true) ∧
    ∃ m, mol = some m ∧ 1 ≤ env.cubeCount m

/-- A call log in which every entry into `updateHistogram()` comes after the
creation of the editor dialog. -/
def EditorFirst (log : List Call) : Prop :=
  ∀ pre post, log = pre ++ Call.updateHistogram :: post → Call.newComDialog ∈ pre

/-- Invariant of the subscription table under rebinding: nothing is subscribed
while no widget is recorded, the recorded widget has exactly one subscription,
and no widget has more than one. -/
def SubscriptionInv (s : ColorOpacityMap) : Prop :=
  (s.m_activeWidget = none → ∀ w, subscriptions s w = 0) ∧
  (∀ w, s.m_activeWidget = some w → subscriptions s w = 1) ∧
  ∀ w, subscriptions s w ≤ 1

/-- Invariant of the reachable states: no null dereference has happened, the
plugin exposes its one action, the log is `EditorFirst`, and either the editor
does not exist yet (then nothing is bound or subscribed and `updateHistogram()`
has never run) or it exists together with its histogram widget. -/
def EditorInv (s : ColorOpacityMap) : Prop :=
  s.nullDeref = false ∧ s.m_actions.length = 1 ∧ EditorFirst s.log ∧
  ((s.m_comDialog = none ∧ s.m_activeWidget = none ∧ (∀ w, subscriptions s w = 0) ∧
      Call.updateHistogram ∉ s.log) ∨
    (s.m_comDialog.isSome = true ∧ s.m_histogramWidget.isSome = true ∧
      Call.newComDialog ∈ s.log))

/-! ## Part 1, proofs: the layout conversion -/

section Layout

/-- Within the `int` range the checked index expression is the plain one. -/
theorem intIndex_eq_some {a B b C c : Nat} (hc : c < C)
    (h : (a * B + b) * C + c < 2 ^ 31) :
    intIndex a B b C c = some ((a * B + b) * C + c) := by
  have hC : 0 < C := Nat.lt_of_le_of_lt (Nat.zero_le c) hc
  have h3 : (a * B + b) * C < 2 ^ 31 := Nat.lt_of_le_of_lt (Nat.le_add_right _ _) h
  have h2 : a * B + b < 2 ^ 31 := Nat.lt_of_le_of_lt (Nat.le_mul_of_pos_right _ hC) h3
  have h1 : a * B < 2 ^ 31 := Nat.lt_of_le_of_lt (Nat.le_add_right _ _) h2
  simp only [intIndex, intResult, Option.bind_eq_bind, if_pos h1, Option.some_bind, if_pos h2,
    if_pos h3, if_pos h]

/-- A mixed-radix index stays below the product of the radices. -/
theorem radix_lt {A B C a b c : Nat} (ha : a < A) (hb : b < B) (hc : c < C) :
    (a * B + b) * C + c < A * B * C := by
  have h1 : a * B + b + 1 ≤ A * B := by
    calc a * B + b + 1 ≤ a * B + B := by omega
      _ = (a + 1) * B := by ring
      _ ≤ A * B := Nat.mul_le_mul_right B ha
  calc (a * B + b) * C + c < (a * B + b) * C + C := by omega
    _ = (a * B + b + 1) * C := by ring
    _ ≤ A * B * C := Nat.mul_le_mul_right C h1

/-- A mixed-radix index determines its digits. -/
theorem radix_inj {B C a b c a' b' c' : Nat} (hb : b < B) (hc : c < C)
    (hb' : b' < B) (hc' : c' < C)
    (h : (a * B + b) * C + c = (a' * B + b') * C + c') :
    a = a' ∧ b = b' ∧ c = c' := by
  have hC : 0 < C := Nat.lt_of_le_of_lt (Nat.zero_le c) hc
  have hB : 0 < B := Nat.lt_of_le_of_lt (Nat.zero_le b) hb
  have e1 : ((a * B + b) * C + c) % C = c := by
    rw [Nat.add_comm, Nat.add_mul_mod_self_right, Nat.mod_eq_of_lt hc]
  have e1' : ((a' * B + b') * C + c') % C = c' := by
    rw [Nat.add_comm, Nat.add_mul_mod_self_right, Nat.mod_eq_of_lt hc']
  have hcc : c = c' := by rw [← e1, h, e1']
  subst hcc
  have h2 : a * B + b = a' * B + b' := by
    have := Nat.add_right_cancel h
    exact Nat.eq_of_mul_eq_mul_right hC this
  have e2 : (a * B + b) % B = b := by
    rw [Nat.add_comm, Nat.add_mul_mod_self_right, Nat.mod_eq_of_lt hb]
  have e2' : (a' * B + b') % B = b' := by
    rw [Nat.add_comm, Nat.add_mul_mod_self_right, Nat.mod_eq_of_lt hb']
  have hbb : b = b' := by rw [← e2, h2, e2']
  subst hbb
  have h3 : a * B = a' * B := Nat.add_right_cancel h2
  exact ⟨Nat.eq_of_mul_eq_mul_right hB h3, rfl, rfl⟩

/-- Every number below the product of the radices is a mixed-radix index. -/
theorem radix_surj {A B C n : Nat} (h : n < A * B * C) :
    ∃ a b c, a < A ∧ b < B ∧ c < C ∧ (a * B + b) * C + c = n := by
  have hC : 0 < C := by
    rcases Nat.eq_zero_or_pos C with h0 | h0
    · simp [h0] at h
    · exact h0
  have hB : 0 < B := by
    rcases Nat.eq_zero_or_pos B with h0 | h0
    · simp [h0] at h
    · exact h0
  have hq : n / C < A * B := Nat.div_lt_of_lt_mul (by rw [Nat.mul_comm]; exact h)
  refine ⟨n / C / B, n / C % B, n % C, ?_, Nat.mod_lt _ hB, Nat.mod_lt _ hC, ?_⟩
  · exact Nat.div_lt_of_lt_mul (by rw [Nat.mul_comm]; exact hq)
  · have e1 : n / C / B * B + n / C % B = n / C := Nat.div_add_mod' (n / C) B
    rw [e1]
    exact Nat.div_add_mod' n C

theorem mem_loopNest {dim : Nat × Nat × Nat} {t : Nat × Nat × Nat} :
    t ∈ loopNest dim ↔ t.1 < dim.1 ∧ t.2.1 < dim.2.1 ∧ t.2.2 < dim.2.2 := by
  obtain ⟨i, j, k⟩ := t
  simp only [loopNest, List.mem_flatMap, List.mem_range, List.mem_map, Prod.mk.injEq]
  constructor
  · rintro ⟨i', hi, j', hj, k', hk, rfl, rfl, rfl⟩
    exact ⟨hi, hj, hk⟩
  · rintro ⟨hi, hj, hk⟩
    exact ⟨i, hi, j, hj, k, hk, rfl, rfl, rfl⟩

theorem nodup_loopNest (dim : Nat × Nat × Nat) : (loopNest dim).Nodup := by
  unfold loopNest
  rw [List.nodup_flatMap]
  refine ⟨fun i _ => ?_, ?_⟩
  · rw [List.nodup_flatMap]
    refine ⟨fun j _ => ?_, ?_⟩
    · exact (List.nodup_range _).map (fun a b h => by simpa using h)
    · refine (List.nodup_range _).pairwise_of_forall_ne ?_
      intro a _ b _ hab
      simp only [Function.onFun, List.disjoint_left, List.mem_map, List.mem_range]
      rintro t ⟨k, _, rfl⟩ ⟨k', _, h⟩
      simp only [Prod.mk.injEq] at h
      exact hab h.2.1.symm
  · refine (List.nodup_range _).pairwise_of_forall_ne ?_
    intro a _ b _ hab
    simp only [Function.onFun, List.disjoint_left, List.mem_flatMap, List.mem_map, List.mem_range]
    rintro t ⟨j, _, k, _, rfl⟩ ⟨j', _, k', _, h⟩
    simp only [Prod.mk.injEq] at h
    exact hab h.1.symm

/-- Folding over a flattened list is folding the inner fold. -/
theorem foldlM_flatMap_option {σ ι κ : Type} (g : ι → List κ) (f : σ → κ → Option σ)
    (l : List ι) (s : σ) :
    (l.flatMap g).foldlM f s = l.foldlM (fun s a => (g a).foldlM f s) s := by
  induction l generalizing s with
  | nil => rfl
  | cons a l ih =>
    simp only [List.flatMap_cons, List.foldlM_append, List.foldlM_cons]
    cases (g a).foldlM f s with
    | none => rfl
    | some s' => exact ih s'

/-- The loop nest is one pass over its iteration space. -/
theorem reorderLoops_eq_foldlM {α : Type} (dim : Nat × Nat × Nat) (cubePtr : Array α)
    (dataPtr : Array (Option α)) :
    reorderLoops dim cubePtr dataPtr =
      (loopNest dim).foldlM (fun buf t => copySample dim cubePtr t.1 t.2.1 t.2.2 buf) dataPtr := by
  simp only [reorderLoops, loopNest, foldlM_flatMap_option, List.foldlM_map]

theorem cubeIndex_lt {dim : Nat × Nat × Nat} {i j k : Nat}
    (hi : i < dim.1) (hj : j < dim.2.1) (hk : k < dim.2.2) :
    cubeIndex dim i j k < dim.1 * dim.2.1 * dim.2.2 :=
  radix_lt hi hj hk

theorem vtkIndex_lt {dim : Nat × Nat × Nat} {i j k : Nat}
    (hi : i < dim.1) (hj : j < dim.2.1) (hk : k < dim.2.2) :
    vtkIndex dim i j k < dim.1 * dim.2.1 * dim.2.2 := by
  have h : (k * dim.2.1 + j) * dim.1 + i < dim.2.2 * dim.2.1 * dim.1 := radix_lt hk hj hi
  have e : dim.2.2 * dim.2.1 * dim.1 = dim.1 * dim.2.1 * dim.2.2 := by ring
  rw [e] at h
  exact h

/-- One iteration of the loop body, on a cube and a buffer of the right size. -/
theorem copySample_spec {α : Type} {dim : Nat × Nat × Nat} {cubePtr : Array α}
    {i j k : Nat} {buf : Array (Option α)}
    (hi : i < dim.1) (hj : j < dim.2.1) (hk : k < dim.2.2)
    (hsize : cubePtr.size = dim.1 * dim.2.1 * dim.2.2)
    (hbuf : buf.size = dim.1 * dim.2.1 * dim.2.2)
    (hint : dim.1 * dim.2.1 * dim.2.2 ≤ 2 ^ 31) :
    ∃ buf', copySample dim cubePtr i j k buf = some buf' ∧ buf'.size = buf.size ∧
      buf'[vtkIndex dim i j k]? = some (cubePtr[cubeIndex dim i j k]?) ∧
      ∀ m, m ≠ vtkIndex dim i j k → buf'[m]? = buf[m]? := by
  have hsrc := cubeIndex_lt hi hj hk
  have hdst := vtkIndex_lt hi hj hk
  have hsrc' : cubeIndex dim i j k < cubePtr.size := by rw [hsize]; exact hsrc
  have hdst' : vtkIndex dim i j k < buf.size := by rw [hbuf]; exact hdst
  have e1 : intIndex k dim.2.1 j dim.1 i = some (vtkIndex dim i j k) :=
    intIndex_eq_some hi (Nat.lt_of_lt_of_le hdst hint)
  have e2 : intIndex i dim.2.1 j dim.2.2 k = some (cubeIndex dim i j k) :=
    intIndex_eq_some hk (Nat.lt_of_lt_of_le hsrc hint)
  refine ⟨buf.set ⟨vtkIndex dim i j k, hdst'⟩ (some cubePtr[cubeIndex dim i j k]), ?_, ?_, ?_, ?_⟩
  · simp only [copySample, e1, e2, Option.bind_eq_bind, Option.some_bind,
      Array.getElem?_eq_getElem hsrc', dif_pos hdst']
  · simp
  · rw [Array.getElem?_eq_getElem hsrc']
    exact Array.getElem?_set_eq buf ⟨vtkIndex dim i j k, hdst'⟩ _
  · intro m hm
    exact Array.getElem?_set_ne buf ⟨vtkIndex dim i j k, hdst'⟩ _ (Ne.symm hm)

/-- A pass of the loop body over any list of distinct in-range iterations that
write distinct cells: it succeeds, each listed cell receives its sample, and
every other cell keeps its content. -/
theorem foldlM_copySample {α : Type} {dim : Nat × Nat × Nat} {cubePtr : Array α}
    (hsize : cubePtr.size = dim.1 * dim.2.1 * dim.2.2)
    (hint : dim.1 * dim.2.1 * dim.2.2 ≤ 2 ^ 31)
    (l : List (Nat × Nat × Nat))
    (hl : ∀ t ∈ l, t.1 < dim.1 ∧ t.2.1 < dim.2.1 ∧ t.2.2 < dim.2.2)
    (hnd : (l.map fun t => vtkIndex dim t.1 t.2.1 t.2.2).Nodup)
    (buf : Array (Option α)) (hbuf : buf.size = dim.1 * dim.2.1 * dim.2.2) :
    ∃ buf', l.foldlM (fun buf t => copySample dim cubePtr t.1 t.2.1 t.2.2 buf) buf = some buf' ∧
      buf'.size = dim.1 * dim.2.1 * dim.2.2 ∧
      (∀ t ∈ l, buf'[vtkIndex dim t.1 t.2.1 t.2.2]? =
        some (cubePtr[cubeIndex dim t.1 t.2.1 t.2.2]?)) ∧
      ∀ m, (∀ t ∈ l, m ≠ vtkIndex dim t.1 t.2.1 t.2.2) → buf'[m]? = buf[m]? := by
  induction l generalizing buf with
  | nil => exact ⟨buf, rfl, hbuf, by simp, fun _ _ => rfl⟩
  | cons t l ih =>
    obtain ⟨ht1, ht2, ht3⟩ := hl t (List.mem_cons_self _ _)
    obtain ⟨b1, hb1, hs1, hv1, ho1⟩ := copySample_spec ht1 ht2 ht3 hsize hbuf hint
    rw [List.map_cons, List.nodup_cons] at hnd
    obtain ⟨b2, hb2, hs2, hv2, ho2⟩ :=
      ih (fun u hu => hl u (List.mem_cons_of_mem _ hu)) hnd.2 b1 (by rw [hs1, hbuf])
    refine ⟨b2, ?_, hs2, ?_, ?_⟩
    · simp only [List.foldlM_cons, hb1, Option.bind_eq_bind, Option.some_bind]
      exact hb2
    · intro u hu
      rcases List.mem_cons.mp hu with rfl | hu'
      · rw [ho2 _ (fun w hw heq => hnd.1 (List.mem_map.mpr ⟨w, hw, heq.symm⟩))]
        exact hv1
      · exact hv2 u hu'
    · intro m hm
      rw [ho2 m (fun w hw => hm w (List.mem_cons_of_mem _ hw))]
      exact ho1 m (hm t (List.mem_cons_self _ _))

theorem vtkIndex_inj {dim : Nat × Nat × Nat} {t u : Nat × Nat × Nat}
    (ht : t ∈ loopNest dim) (hu : u ∈ loopNest dim)
    (h : vtkIndex dim t.1 t.2.1 t.2.2 = vtkIndex dim u.1 u.2.1 u.2.2) : t = u := by
  obtain ⟨ht1, ht2, _⟩ := mem_loopNest.mp ht
  obtain ⟨hu1, hu2, _⟩ := mem_loopNest.mp hu
  obtain ⟨e3, e2, e1⟩ := radix_inj ht2 ht1 hu2 hu1 h
  exact Prod.ext e1 (Prod.ext e2 e3)

theorem cubeIndex_inj {dim : Nat × Nat × Nat} {t u : Nat × Nat × Nat}
    (ht : t ∈ loopNest dim) (hu : u ∈ loopNest dim)
    (h : cubeIndex dim t.1 t.2.1 t.2.2 = cubeIndex dim u.1 u.2.1 u.2.2) : t = u := by
  obtain ⟨_, ht2, ht3⟩ := mem_loopNest.mp ht
  obtain ⟨_, hu2, hu3⟩ := mem_loopNest.mp hu
  obtain ⟨e1, e2, e3⟩ := radix_inj ht2 ht3 hu2 hu3 h
  exact Prod.ext e1 (Prod.ext e2 e3)

theorem nodup_map_vtkIndex (dim : Nat × Nat × Nat) :
    ((loopNest dim).map fun t => vtkIndex dim t.1 t.2.1 t.2.2).Nodup :=
  (nodup_loopNest dim).map_on fun _ ht _ hu h => vtkIndex_inj ht hu h

theorem nodup_map_cubeIndex (dim : Nat × Nat × Nat) :
    ((loopNest dim).map fun t => cubeIndex dim t.1 t.2.1 t.2.2).Nodup :=
  (nodup_loopNest dim).map_on fun _ ht _ hu h => cubeIndex_inj ht hu h

/-- The cells written by the loop nest are exactly the cells of the buffer. -/
theorem perm_map_vtkIndex (dim : Nat × Nat × Nat) :
    ((loopNest dim).map fun t => vtkIndex dim t.1 t.2.1 t.2.2).Perm
      (List.range (dim.1 * dim.2.1 * dim.2.2)) := by
  rw [List.perm_ext_iff_of_nodup (nodup_map_vtkIndex dim) (List.nodup_range _)]
  intro m
  simp only [List.mem_map, List.mem_range]
  constructor
  · rintro ⟨t, ht, rfl⟩
    obtain ⟨h1, h2, h3⟩ := mem_loopNest.mp ht
    exact vtkIndex_lt h1 h2 h3
  · intro hm
    have e : dim.1 * dim.2.1 * dim.2.2 = dim.2.2 * dim.2.1 * dim.1 := by ring
    rw [e] at hm
    obtain ⟨k, j, i, hk, hj, hi, h⟩ := radix_surj hm
    exact ⟨(i, j, k), mem_loopNest.mpr ⟨hi, hj, hk⟩, h⟩

/-- The samples read by the loop nest are exactly the samples of the cube. -/
theorem perm_map_cubeIndex (dim : Nat × Nat × Nat) :
    ((loopNest dim).map fun t => cubeIndex dim t.1 t.2.1 t.2.2).Perm
      (List.range (dim.1 * dim.2.1 * dim.2.2)) := by
  rw [List.perm_ext_iff_of_nodup (nodup_map_cubeIndex dim) (List.nodup_range _)]
  intro m
  simp only [List.mem_map, List.mem_range]
  constructor
  · rintro ⟨t, ht, rfl⟩
    obtain ⟨h1, h2, h3⟩ := mem_loopNest.mp ht
    exact cubeIndex_lt h1 h2 h3
  · intro hm
    obtain ⟨i, j, k, hi, hj, hk, h⟩ := radix_surj hm
    exact ⟨(i, j, k), mem_loopNest.mpr ⟨hi, hj, hk⟩, h⟩

/-- The loop nest on a freshly allocated buffer: it terminates normally and
leaves in every cell `vtkIndex` the sample read at `cubeIndex`. -/
theorem reorderLoops_spec {α : Type} {dim : Nat × Nat × Nat} {cubePtr : Array α}
    (hsize : cubePtr.size = dim.1 * dim.2.1 * dim.2.2)
    (hint : dim.1 * dim.2.1 * dim.2.2 ≤ 2 ^ 31) :
    ∃ buf, reorderLoops dim cubePtr (mkArray (dim.1 * dim.2.1 * dim.2.2) none) = some buf ∧
      buf.size = dim.1 * dim.2.1 * dim.2.2 ∧
      ∀ t ∈ loopNest dim, buf[vtkIndex dim t.1 t.2.1 t.2.2]? =
        some (cubePtr[cubeIndex dim t.1 t.2.1 t.2.2]?) := by
  obtain ⟨buf, h1, h2, h3, _⟩ :=
    foldlM_copySample hsize hint (loopNest dim) (fun t ht => mem_loopNest.mp ht)
      (nodup_map_vtkIndex dim) (mkArray (dim.1 * dim.2.1 * dim.2.2) none) (Array.size_mkArray _ _)
  exact ⟨buf, by rw [reorderLoops_eq_foldlM]; exact h1, h2, h3⟩

theorem range_map_getElem? {β : Type} (l : List β) :
    (List.range l.length).map (fun i => l[i]?) = l.map some := by
  apply List.ext_getElem
  · simp
  · intro n h1 h2
    simp only [List.length_map, List.length_range] at h1
    simp [List.getElem?_eq_getElem h1]

/-- The converted buffer is a rearrangement of the cube's samples. -/
theorem reorderLoops_perm {α : Type} {dim : Nat × Nat × Nat} {cubePtr : Array α}
    {buf : Array (Option α)}
    (hsize : cubePtr.size = dim.1 * dim.2.1 * dim.2.2)
    (hbuf : buf.size = dim.1 * dim.2.1 * dim.2.2)
    (h : ∀ t ∈ loopNest dim, buf[vtkIndex dim t.1 t.2.1 t.2.2]? =
        some (cubePtr[cubeIndex dim t.1 t.2.1 t.2.2]?)) :
    buf.toList.Perm (cubePtr.toList.map some) := by
  have e0 : (loopNest dim).map (fun t => buf.toList[vtkIndex dim t.1 t.2.1 t.2.2]?) =
      (loopNest dim).map (fun t => some (cubePtr.toList[cubeIndex dim t.1 t.2.1 t.2.2]?)) := by
    apply List.map_congr_left
    intro t ht
    have := h t ht
    rw [Array.getElem?_eq_getElem?_toList, Array.getElem?_eq_getElem?_toList] at this
    exact this
  have p1 : ((loopNest dim).map (fun t => buf.toList[vtkIndex dim t.1 t.2.1 t.2.2]?)).Perm
      (buf.toList.map some) := by
    have := (perm_map_vtkIndex dim).map (fun m => buf.toList[m]?)
    rw [List.map_map, ← hbuf, Array.size_eq_length_toList, range_map_getElem?] at this
    exact this
  have p2 : ((loopNest dim).map
      (fun t => some (cubePtr.toList[cubeIndex dim t.1 t.2.1 t.2.2]?))).Perm
      ((cubePtr.toList.map some).map some) := by
    have := ((perm_map_cubeIndex dim).map (fun m => cubePtr.toList[m]?)).map some
    rw [List.map_map, List.map_map, ← hsize, Array.size_eq_length_toList,
      range_map_getElem?] at this
    exact this
  rw [e0] at p1
  have p3 : (buf.toList.map some).Perm ((cubePtr.toList.map some).map some) := p1.symm.trans p2
  have p4 := p3.map (fun o => o.getD none)
  simpa [List.map_map, Function.comp_def] using p4

/-- Within the `int` range the loop nest evaluates exactly the plain index
expressions. -/
theorem sampleMoves_eq {dim : Nat × Nat × Nat} (hint : dim.1 * dim.2.1 * dim.2.2 ≤ 2 ^ 31) :
    sampleMoves dim = (loopNest dim).map fun t =>
      (some (cubeIndex dim t.1 t.2.1 t.2.2), some (vtkIndex dim t.1 t.2.1 t.2.2)) := by
  unfold sampleMoves
  apply List.map_congr_left
  intro t ht
  obtain ⟨h1, h2, h3⟩ := mem_loopNest.mp ht
  have e1 : intIndex t.1 dim.2.1 t.2.1 dim.2.2 t.2.2 = some (cubeIndex dim t.1 t.2.1 t.2.2) :=
    intIndex_eq_some h3 (Nat.lt_of_lt_of_le (cubeIndex_lt h1 h2 h3) hint)
  have e2 : intIndex t.2.2 dim.2.1 t.2.1 dim.1 t.1 = some (vtkIndex dim t.1 t.2.1 t.2.2) :=
    intIndex_eq_some h1 (Nat.lt_of_lt_of_le (vtkIndex_lt h1 h2 h3) hint)
  rw [e1, e2]

theorem sampleMoves_map_fst {dim : Nat × Nat × Nat}
    (hint : dim.1 * dim.2.1 * dim.2.2 ≤ 2 ^ 31) :
    (sampleMoves dim).map Prod.fst =
      ((loopNest dim).map fun t => cubeIndex dim t.1 t.2.1 t.2.2).map some := by
  simp [sampleMoves_eq hint, List.map_map, Function.comp_def]

theorem sampleMoves_map_snd {dim : Nat × Nat × Nat}
    (hint : dim.1 * dim.2.1 * dim.2.2 ≤ 2 ^ 31) :
    (sampleMoves dim).map Prod.snd =
      ((loopNest dim).map fun t => vtkIndex dim t.1 t.2.1 t.2.2).map some := by
  simp [sampleMoves_eq hint, List.map_map, Function.comp_def]

theorem mem_sampleMoves {dim : Nat × Nat × Nat} (hint : dim.1 * dim.2.1 * dim.2.2 ≤ 2 ^ 31)
    {p : Option Nat × Option Nat} :
    p ∈ sampleMoves dim ↔ ∃ i j k, i < dim.1 ∧ j < dim.2.1 ∧ k < dim.2.2 ∧
      p = (some (cubeIndex dim i j k), some (vtkIndex dim i j k)) := by
  rw [sampleMoves_eq hint]
  simp only [List.mem_map]
  constructor
  · rintro ⟨t, ht, rfl⟩
    obtain ⟨h1, h2, h3⟩ := mem_loopNest.mp ht
    exact ⟨t.1, t.2.1, t.2.2, h1, h2, h3, rfl⟩
  · rintro ⟨i, j, k, hi, hj, hk, rfl⟩
    exact ⟨(i, j, k), mem_loopNest.mpr ⟨hi, hj, hk⟩, rfl⟩

theorem count_some_map_some (l : List Nat) (n : Nat) :
    (l.map some).count (some n) = l.count n := by
  induction l with
  | nil => rfl
  | cons a l ih => simp [List.count_cons, ih]

/-- A pass that meets an element on which the body always fails, fails. -/
theorem foldlM_eq_none_of_mem {σ ι : Type} (f : σ → ι → Option σ) (t : ι)
    (hf : ∀ s, f s t = none) (l : List ι) (ht : t ∈ l) (s : σ) :
    l.foldlM f s = none := by
  induction l generalizing s with
  | nil => cases ht
  | cons a l ih =>
    rw [List.foldlM_cons]
    rcases List.mem_cons.mp ht with rfl | ht'
    · rw [hf s]
      rfl
    · cases f s a with
      | none => rfl
      | some s' => exact ih ht' s'

/-- The loop body fails when the index read in the cube overflows `int`. -/
theorem copySample_eq_none {α : Type} (dim : Nat × Nat × Nat) (cubePtr : Array α)
    (i j k : Nat) (buf : Array (Option α))
    (h : intIndex i dim.2.1 j dim.2.2 k = none) :
    copySample dim cubePtr i j k buf = none := by
  unfold copySample
  cases intIndex k dim.2.1 j dim.1 i with
  | none => rfl
  | some dst =>
    rw [h]
    rfl

/-- The conversion has no defined result when some iteration of the loop nest
overflows `int` in the index it reads. -/
theorem cubeImageData_eq_none {α ρ : Type} (cube : Cube α ρ) (i j k : Nat)
    (hi : i < cube.dimensions.1) (hj : j < cube.dimensions.2.1) (hk : k < cube.dimensions.2.2)
    (h : intIndex i cube.dimensions.2.1 j cube.dimensions.2.2 k = none) :
    cubeImageData cube = none := by
  have e : reorderLoops cube.dimensions cube.data
      (mkArray (cube.dimensions.1 * cube.dimensions.2.1 * cube.dimensions.2.2) none) = none := by
    rw [reorderLoops_eq_foldlM]
    exact foldlM_eq_none_of_mem _ (i, j, k)
      (fun buf => copySample_eq_none cube.dimensions cube.data i j k buf h)
      _ (mem_loopNest.mpr ⟨hi, hj, hk⟩) _
  simp only [cubeImageData, e, Option.map_none']

/-- The whole conversion on a well-formed cube. -/
theorem cubeImageData_spec {α ρ : Type} (cube : Cube α ρ)
    (hsize : cube.data.size = cube.dimensions.1 * cube.dimensions.2.1 * cube.dimensions.2.2)
    (hint : cube.dimensions.1 * cube.dimensions.2.1 * cube.dimensions.2.2 ≤ 2 ^ 31) :
    ∃ img, cubeImageData cube = some img ∧
      img.scalars.size = cube.dimensions.1 * cube.dimensions.2.1 * cube.dimensions.2.2 ∧
      ∀ t ∈ loopNest cube.dimensions,
        img.scalars[vtkIndex cube.dimensions t.1 t.2.1 t.2.2]? =
          some (cube.data[cubeIndex cube.dimensions t.1 t.2.1 t.2.2]?) := by
  obtain ⟨buf, h1, h2, h3⟩ := reorderLoops_spec hsize hint
  exact ⟨_, by simp only [cubeImageData, h1, Option.map_some']; rfl, h2, h3⟩

end Layout

/-! ## Part 2, proofs: the plugin -/

section Plugin

theorem pushHistogram_fields (env : Env) (s : ColorOpacityMap) :
    (pushHistogram env s).m_actions = s.m_actions ∧
    (pushHistogram env s).m_molecule = s.m_molecule ∧
    (pushHistogram env s).m_comDialog = s.m_comDialog ∧
    (pushHistogram env s).m_histogramWidget = s.m_histogramWidget ∧
    (pushHistogram env s).m_activeWidget = s.m_activeWidget ∧
    (pushHistogram env s).connections = s.connections := by
  unfold pushHistogram
  dsimp only
  repeat' split
  all_goals exact ⟨rfl, rfl, rfl, rfl, rfl, rfl⟩

theorem rebindActiveWidget_fields (env : Env) (s : ColorOpacityMap) :
    (rebindActiveWidget env s).m_actions = s.m_actions ∧
    (rebindActiveWidget env s).m_molecule = s.m_molecule ∧
    (rebindActiveWidget env s).m_comDialog = s.m_comDialog ∧
    (rebindActiveWidget env s).m_histogramWidget = s.m_histogramWidget ∧
    (rebindActiveWidget env s).log = s.log ∧
    (rebindActiveWidget env s).nullDeref = s.nullDeref := by
  unfold rebindActiveWidget
  dsimp only
  repeat' split
  all_goals exact ⟨rfl, rfl, rfl, rfl, rfl, rfl⟩

theorem updateHistogram_fields (env : Env) (s : ColorOpacityMap) :
    (updateHistogram env s).m_actions = s.m_actions ∧
    (updateHistogram env s).m_molecule = s.m_molecule ∧
    (updateHistogram env s).m_comDialog = s.m_comDialog ∧
    (updateHistogram env s).m_histogramWidget = s.m_histogramWidget := by
  unfold updateHistogram
  obtain ⟨p1, p2, p3, p4, _, _⟩ := pushHistogram_fields env
    (rebindActiveWidget env { s with log := s.log ++ [Call.updateHistogram] })
  obtain ⟨r1, r2, r3, r4, _, _⟩ := rebindActiveWidget_fields env
    { s with log := s.log ++ [Call.updateHistogram] }
  exact ⟨p1.trans r1, p2.trans r2, p3.trans r3, p4.trans r4⟩

/-- The second block pushes nothing unless the spec's policy holds. -/
theorem pushHistogram_of_not_policy (env : Env) (s : ColorOpacityMap)
    (h : ¬ EnabledPolicy env s.m_molecule) : pushHistogram env s = s := by
  unfold pushHistogram qobject_cast_vtkGLWidget
  dsimp only
  split
  · rename_i v m hv hm
    split
    · rename_i hc
      exfalso
      apply h
      refine ⟨?_, m, hm, Nat.one_le_iff_ne_zero.mpr hc⟩
      split at hv
      · rename_i w hw
        split at hv
        · rename_i hvtk
          exact ⟨w, hw, hvtk⟩
        · cases hv
      · cases hv
    · rfl
  · rfl

/-- With a histogram widget in place the second block only appends to the log. -/
theorem pushHistogram_safe (env : Env) (s : ColorOpacityMap)
    (h : s.m_histogramWidget.isSome = true) :
    (pushHistogram env s).nullDeref = s.nullDeref ∧
      ∃ es, (pushHistogram env s).log = s.log ++ es := by
  unfold pushHistogram
  dsimp only
  split
  · split
    · split
      · rename_i hn
        rw [hn] at h
        cases h
      · split
        · exact ⟨rfl, _, by simp only [List.append_assoc]; rfl⟩
        · exact ⟨rfl, _, rfl⟩
    · exact ⟨rfl, [], (List.append_nil _).symm⟩
  · exact ⟨rfl, [], (List.append_nil _).symm⟩

theorem updateActions_fields (env : Env) (s : ColorOpacityMap) :
    (updateActions env s).m_molecule = s.m_molecule ∧
    (updateActions env s).m_comDialog = s.m_comDialog ∧
    (updateActions env s).m_histogramWidget = s.m_histogramWidget ∧
    (updateActions env s).m_activeWidget = s.m_activeWidget ∧
    (updateActions env s).connections = s.connections ∧
    (updateActions env s).log = s.log ∧
    (updateActions env s).nullDeref = s.nullDeref ∧
    (updateActions env s).m_actions.length = s.m_actions.length := by
  unfold updateActions
  dsimp only
  repeat' split
  all_goals exact ⟨rfl, rfl, rfl, rfl, rfl, rfl, rfl, by simp⟩

/-- What `updateActions` does to the actions, against the spec's policy. -/
theorem updateActions_m_actions (env : Env) (s : ColorOpacityMap) :
    (EnabledPolicy env s.m_molecule ∧
      (updateActions env s).m_actions = s.m_actions.map fun a => a.setEnabled true) ∨
    (¬ EnabledPolicy env s.m_molecule ∧
      (updateActions env s).m_actions = s.m_actions.map fun a => a.setEnabled false) := by
  unfold updateActions qobject_cast_vtkGLWidget EnabledPolicy
  dsimp only
  split
  · rename_i v m hv hm
    have hw : ∃ w, env.activeWidget = some w ∧ w.isVtkGLWidget = true := by
      split at hv
      · rename_i w hw
        split at hv
        · rename_i hvtk
          exact ⟨w, hw, hvtk⟩
        · cases hv
      · cases hv
    split
    · rename_i hc
      right
      refine ⟨?_, rfl⟩
      rintro ⟨_, m', hm', hc'⟩
      rw [hm] at hm'
      cases hm'
      omega
    · rename_i hc
      left
      exact ⟨⟨hw, m, hm, Nat.one_le_iff_ne_zero.mpr hc⟩, rfl⟩
  · rename_i hne
    right
    refine ⟨?_, rfl⟩
    rintro ⟨⟨w, hw, hvtk⟩, m, hm, _⟩
    exact hne w m (by rw [hw]; simp [hvtk]) hm

theorem updateHistogram_of_not_policy (env : Env) (s : ColorOpacityMap)
    (h : ¬ EnabledPolicy env s.m_molecule) :
    updateHistogram env s =
      rebindActiveWidget env { s with log := s.log ++ [Call.updateHistogram] } := by
  unfold updateHistogram
  apply pushHistogram_of_not_policy
  rw [(rebindActiveWidget_fields env _).2.1]
  exact h

/-- The first block leaves the binding alone when the active widget is no
`vtkGLWidget`. -/
theorem rebindActiveWidget_of_not_vtk (env : Env) (s : ColorOpacityMap)
    (h : ∀ w, env.activeWidget = some w → w.isVtkGLWidget = false) :
    rebindActiveWidget env s = s := by
  unfold rebindActiveWidget qobject_cast_vtkGLWidget
  dsimp only
  split
  · rename_i w v hw hv
    rw [hw] at hv
    dsimp only at hv
    rw [h w hw] at hv
    simp at hv
  · rfl

theorem mem_map_setEnabled {l : List QAction} {b : Bool} {a : QAction}
    (h : a ∈ l.map fun x => x.setEnabled b) : a.enabled = b := by
  obtain ⟨x, _, rfl⟩ := List.mem_map.mp h
  rfl

/-- After `updateActions` the actions are the same in number and each is enabled
exactly when the spec's policy holds. -/
theorem updateActions_spec (env : Env) (s : ColorOpacityMap) :
    (updateActions env s).m_actions.length = s.m_actions.length ∧
    (∀ a ∈ (updateActions env s).m_actions,
      (a.enabled = true ↔ EnabledPolicy env s.m_molecule)) ∧
    (∀ m, s.m_molecule = some m → env.cubeCount m = 0 →
      ∀ a ∈ (updateActions env s).m_actions, a.enabled = false) := by
  refine ⟨(updateActions_fields env s).2.2.2.2.2.2.2, ?_, ?_⟩
  · intro a ha
    rcases updateActions_m_actions env s with ⟨hp, he⟩ | ⟨hp, he⟩
    · rw [he] at ha
      exact ⟨fun _ => hp, fun _ => mem_map_setEnabled ha⟩
    · rw [he] at ha
      have hf : a.enabled = false := mem_map_setEnabled ha
      exact ⟨fun h => (by rw [hf] at h; cases h), fun h => absurd h hp⟩
  · intro m hm hc a ha
    rcases updateActions_m_actions env s with ⟨hp, _⟩ | ⟨_, he⟩
    · obtain ⟨_, m', hm', hc'⟩ := hp
      rw [hm] at hm'
      cases hm'
      omega
    · rw [he] at ha
      exact mem_map_setEnabled ha

end Plugin

section Binding

theorem count_sub_connect (w w' : QWidget) (cs : List Connection) :
    (connect (Sender.widget w) Signal.imageDataUpdated Slot.updateHistogram cs).count
        ⟨Sender.widget w', Signal.imageDataUpdated, Slot.updateHistogram⟩ =
      cs.count ⟨Sender.widget w', Signal.imageDataUpdated, Slot.updateHistogram⟩ +
        if w = w' then 1 else 0 := by
  simp [connect, List.count_append, List.count_singleton]

theorem count_sub_disconnect_self (w : QWidget) (cs : List Connection) :
    (disconnect (Sender.widget w) cs).count
        ⟨Sender.widget w, Signal.imageDataUpdated, Slot.updateHistogram⟩ = 0 := by
  apply List.count_eq_zero_of_not_mem
  simp [disconnect, List.mem_filter]

theorem count_sub_disconnect_widget (w w' : QWidget) (h : w' ≠ w) (cs : List Connection) :
    (disconnect (Sender.widget w) cs).count
        ⟨Sender.widget w', Signal.imageDataUpdated, Slot.updateHistogram⟩ =
      cs.count ⟨Sender.widget w', Signal.imageDataUpdated, Slot.updateHistogram⟩ := by
  unfold disconnect
  apply List.count_filter
  simpa using h

theorem count_sub_disconnect_molecule (m : Molecule) (w' : QWidget) (cs : List Connection) :
    (disconnect (Sender.molecule m) cs).count
        ⟨Sender.widget w', Signal.imageDataUpdated, Slot.updateHistogram⟩ =
      cs.count ⟨Sender.widget w', Signal.imageDataUpdated, Slot.updateHistogram⟩ := by
  unfold disconnect
  apply List.count_filter
  simp

theorem count_sub_connect_other (sender : Sender) (signal : Signal) (slot : Slot)
    (w' : QWidget) (h : signal ≠ Signal.imageDataUpdated) (cs : List Connection) :
    (connect sender signal slot cs).count
        ⟨Sender.widget w', Signal.imageDataUpdated, Slot.updateHistogram⟩ =
      cs.count ⟨Sender.widget w', Signal.imageDataUpdated, Slot.updateHistogram⟩ := by
  simp [connect, List.count_append, List.count_singleton, h]

/-- The two outcomes of the first block of `updateHistogram()`. -/
theorem rebindActiveWidget_cases (env : Env) (s : ColorOpacityMap) :
    (∃ w, env.activeWidget = some w ∧ w.isVtkGLWidget = true ∧ s.m_activeWidget ≠ some w ∧
      rebindActiveWidget env s =
        { s with
          connections := connect (Sender.widget w) Signal.imageDataUpdated Slot.updateHistogram
            (if s.m_activeWidget.isSome then disconnect (Sender.widget w) s.connections
             else s.connections)
          m_activeWidget := some w }) ∨
    (rebindActiveWidget env s = s ∧
      ∀ w, env.activeWidget = some w → w.isVtkGLWidget = true → s.m_activeWidget = some w) := by
  unfold rebindActiveWidget qobject_cast_vtkGLWidget
  dsimp only
  split
  · rename_i w v hw hv
    have hvtk : w.isVtkGLWidget = true := by
      rw [hw] at hv
      dsimp only at hv
      split at hv
      · assumption
      · cases hv
    split
    · rename_i hne
      left
      exact ⟨w, hw, hvtk, fun h => hne h.symm, rfl⟩
    · rename_i heq
      right
      refine ⟨rfl, ?_⟩
      intro w' hw' _
      rw [hw] at hw'
      cases hw'
      exact (not_not.mp heq).symm
  · rename_i hno
    right
    refine ⟨rfl, ?_⟩
    intro w hw hv
    exact (hno w w hw (by rw [hw]; simp [hv])).elim

theorem rebindActiveWidget_subscriptionInv (env : Env) (s : ColorOpacityMap)
    (h : SubscriptionInv s) : SubscriptionInv (rebindActiveWidget env s) := by
  rcases rebindActiveWidget_cases env s with ⟨w, _, _, _, e⟩ | ⟨e, _⟩
  · rw [e]
    obtain ⟨h0, _, h2⟩ := h
    have hw : (connect (Sender.widget w) Signal.imageDataUpdated Slot.updateHistogram
        (if s.m_activeWidget.isSome then disconnect (Sender.widget w) s.connections
         else s.connections)).count
          ⟨Sender.widget w, Signal.imageDataUpdated, Slot.updateHistogram⟩ = 1 := by
      rw [count_sub_connect, if_pos rfl]
      split
      · rw [count_sub_disconnect_self]
      · rename_i hn
        have := h0 (by simpa using hn) w
        unfold subscriptions at this
        rw [this]
    have hother : ∀ w', w' ≠ w →
        (connect (Sender.widget w) Signal.imageDataUpdated Slot.updateHistogram
          (if s.m_activeWidget.isSome then disconnect (Sender.widget w) s.connections
           else s.connections)).count
            ⟨Sender.widget w', Signal.imageDataUpdated, Slot.updateHistogram⟩ ≤ 1 := by
      intro w' hne
      rw [count_sub_connect, if_neg (Ne.symm hne), Nat.add_zero]
      split
      · rw [count_sub_disconnect_widget w w' hne]
        exact h2 w'
      · exact h2 w'
    refine ⟨fun hn => (by cases hn), ?_, ?_⟩
    · intro w' hw'
      cases hw'
      exact hw
    · intro w'
      by_cases hww : w' = w
      · subst hww
        exact Nat.le_of_eq hw
      · exact hother w' hww
  · rw [e]
    exact h

theorem subscriptionInv_congr {s t : ColorOpacityMap}
    (h1 : t.m_activeWidget = s.m_activeWidget) (h2 : t.connections = s.connections)
    (h : SubscriptionInv s) : SubscriptionInv t := by
  unfold SubscriptionInv subscriptions at *
  rw [h1, h2]
  exact h

theorem updateHistogram_subscriptionInv (env : Env) (s : ColorOpacityMap)
    (h : SubscriptionInv s) : SubscriptionInv (updateHistogram env s) := by
  unfold updateHistogram
  obtain ⟨_, _, _, _, p5, p6⟩ := pushHistogram_fields env
    (rebindActiveWidget env { s with log := s.log ++ [Call.updateHistogram] })
  refine subscriptionInv_congr p5 p6 (rebindActiveWidget_subscriptionInv env _ ?_)
  exact subscriptionInv_congr rfl rfl h

theorem updateHistogram_bound (env : Env) (s : ColorOpacityMap) (w : QWidget)
    (hw : env.activeWidget = some w) (hv : w.isVtkGLWidget = true) :
    (updateHistogram env s).m_activeWidget = some w := by
  unfold updateHistogram
  rw [(pushHistogram_fields env _).2.2.2.2.1]
  rcases rebindActiveWidget_cases env { s with log := s.log ++ [Call.updateHistogram] }
    with ⟨w', hw', _, _, e⟩ | ⟨e, hb⟩
  · rw [hw] at hw'
    cases hw'
    rw [e]
  · rw [e]
    exact hb w hw hv

theorem new_subscriptionInv (env : Env) : SubscriptionInv (ColorOpacityMap.new env) := by
  have e1 : (ColorOpacityMap.new env).m_activeWidget = none :=
    (updateActions_fields env _).2.2.2.1
  have e2 : (ColorOpacityMap.new env).connections =
      connect Sender.displayDialogAction Signal.triggered Slot.displayDialog [] :=
    (updateActions_fields env _).2.2.2.2.1
  have h0 : ∀ w, subscriptions (ColorOpacityMap.new env) w = 0 := by
    intro w
    unfold subscriptions
    rw [e2, count_sub_connect_other _ _ _ _ (by decide)]
    rfl
  refine ⟨fun _ => h0, ?_, fun w => by rw [h0 w]; exact Nat.zero_le 1⟩
  intro w hw
  rw [e1] at hw
  cases hw

theorem foldl_updateHistogram_subscriptionInv (envs : List Env) (s : ColorOpacityMap)
    (h : SubscriptionInv s) :
    SubscriptionInv (envs.foldl (fun s e => updateHistogram e s) s) := by
  induction envs generalizing s with
  | nil => exact h
  | cons e envs ih => exact ih _ (updateHistogram_subscriptionInv e s h)

end Binding

section Reachability

theorem editorFirst_of_not_mem {t : List Call} (h : Call.updateHistogram ∉ t) :
    EditorFirst t := by
  intro pre post e
  exact absurd (by rw [e]; simp) h

theorem editorFirst_append {t : List Call} (es : List Call) (h : EditorFirst t)
    (hm : Call.newComDialog ∈ t) : EditorFirst (t ++ es) := by
  intro pre post e
  rcases List.append_eq_append_iff.mp e with ⟨a', h1, _⟩ | ⟨c', h1, h2⟩
  · rw [h1]
    exact List.mem_append_left _ hm
  · cases c' with
    | nil =>
      rw [List.append_nil] at h1
      rw [← h1]
      exact hm
    | cons x c'' =>
      rw [List.cons_append] at h2
      injection h2 with hx _
      subst hx
      exact h pre c'' h1

/-- With a histogram widget in place `updateHistogram` dereferences nothing
null and only appends to the log. -/
theorem updateHistogram_safe (env : Env) (s : ColorOpacityMap)
    (h : s.m_histogramWidget.isSome = true) :
    (updateHistogram env s).nullDeref = s.nullDeref ∧
      ∃ es, (updateHistogram env s).log = s.log ++ es := by
  unfold updateHistogram
  obtain ⟨_, _, _, r4, r5, r6⟩ := rebindActiveWidget_fields env
    { s with log := s.log ++ [Call.updateHistogram] }
  obtain ⟨p1, es, p2⟩ := pushHistogram_safe env
    (rebindActiveWidget env { s with log := s.log ++ [Call.updateHistogram] })
    (by rw [r4]; exact h)
  refine ⟨by rw [p1, r6], [Call.updateHistogram] ++ es, ?_⟩
  rw [p2, r5, List.append_assoc]

/-- Once the editor exists, `updateHistogram` keeps the invariant and the editor. -/
theorem updateHistogram_editorInv (env : Env) (s : ColorOpacityMap) (h : EditorInv s)
    (hd : s.m_comDialog.isSome = true) :
    EditorInv (updateHistogram env s) ∧ (updateHistogram env s).m_comDialog.isSome = true := by
  obtain ⟨h1, h2, h3, h4⟩ := h
  obtain ⟨f1, _, f3, f4⟩ := updateHistogram_fields env s
  rcases h4 with ⟨hn, _⟩ | ⟨_, hw, hm⟩
  · rw [hn] at hd
    cases hd
  · obtain ⟨s1, es, s2⟩ := updateHistogram_safe env s hw
    refine ⟨⟨by rw [s1]; exact h1, by rw [f1]; exact h2, ?_, Or.inr ⟨?_, ?_, ?_⟩⟩, ?_⟩
    · rw [s2]
      exact editorFirst_append es h3 hm
    · rw [f3]; exact hd
    · rw [f4]; exact hw
    · rw [s2]
      exact List.mem_append_left _ hm
    · rw [f3]; exact hd

theorem iterate_updateHistogram_editorInv (env : Env) (n : Nat) (s : ColorOpacityMap)
    (h : EditorInv s) (hd : s.m_comDialog.isSome = true) :
    EditorInv ((updateHistogram env)^[n] s) ∧
      ((updateHistogram env)^[n] s).m_comDialog.isSome = true := by
  induction n generalizing s with
  | zero => exact ⟨h, hd⟩
  | succ n ih =>
    rw [Function.iterate_succ_apply]
    obtain ⟨h', hd'⟩ := updateHistogram_editorInv env s h hd
    exact ih _ h' hd'

theorem updateActions_editorInv (env : Env) (s : ColorOpacityMap) (h : EditorInv s) :
    EditorInv (updateActions env s) := by
  obtain ⟨_, a2, a3, a4, a5, a6, a7, a8⟩ := updateActions_fields env s
  unfold EditorInv subscriptions at *
  rw [a2, a3, a4, a5, a6, a7, a8]
  exact h

theorem new_editorInv (env : Env) : EditorInv (ColorOpacityMap.new env) := by
  obtain ⟨_, a2, _, a4, _, a6, a7, a8⟩ := updateActions_fields env
    { m_actions := [{ text := "Edit Color Opacity Map…", menuPriority := 70, enabled := true }]
      m_molecule := none
      m_comDialog := none
      m_histogramWidget := none
      m_activeWidget := none
      connections := connect Sender.displayDialogAction Signal.triggered Slot.displayDialog []
      log := []
      nullDeref := false }
  have hl : (ColorOpacityMap.new env).log = [] := a6
  refine ⟨a7, a8, ?_, Or.inl ⟨a2, a4, fun w => ?_, ?_⟩⟩
  · rw [hl]
    exact editorFirst_of_not_mem (List.not_mem_nil _)
  · exact (new_subscriptionInv env).1 a4 w
  · rw [hl]
    exact List.not_mem_nil _

/-- The invariant only looks at these components of the state. -/
theorem editorInv_congr {s t : ColorOpacityMap}
    (e1 : t.nullDeref = s.nullDeref) (e2 : t.m_actions.length = s.m_actions.length)
    (e3 : t.log = s.log) (e4 : t.m_comDialog = s.m_comDialog)
    (e5 : t.m_histogramWidget = s.m_histogramWidget)
    (e6 : t.m_activeWidget = s.m_activeWidget)
    (e7 : ∀ w, subscriptions t w = subscriptions s w)
    (h : EditorInv s) : EditorInv t := by
  obtain ⟨h1, h2, h3, h4⟩ := h
  refine ⟨by rw [e1]; exact h1, by rw [e2]; exact h2, by rw [e3]; exact h3, ?_⟩
  rcases h4 with ⟨a, b, c, d⟩ | ⟨a, b, c⟩
  · exact Or.inl ⟨by rw [e4]; exact a, by rw [e6]; exact b,
      fun w => by rw [e7]; exact c w, by rw [e3]; exact d⟩
  · exact Or.inr ⟨by rw [e4]; exact a, by rw [e5]; exact b, by rw [e3]; exact c⟩

theorem setMolecule_editorInv (env : Env) (mol : Option Molecule) (s : ColorOpacityMap)
    (h : EditorInv s) : EditorInv (setMolecule env mol s) := by
  unfold setMolecule
  split
  · exact h
  · apply updateActions_editorInv
    refine @editorInv_congr s _ rfl rfl rfl rfl rfl rfl ?_ h
    intro w
    unfold subscriptions
    dsimp only
    cases s.m_molecule <;> cases mol <;>
      simp only [count_sub_connect_other _ _ _ _ (by decide : Signal.changed ≠ Signal.imageDataUpdated),
        count_sub_disconnect_molecule]

theorem moleculeChanged_editorInv (mc : MoleculeChange) (env : Env) (c : Nat)
    (s : ColorOpacityMap) (h : EditorInv s) : EditorInv (moleculeChanged mc env c s) := by
  unfold moleculeChanged
  split
  · exact h
  · rename_i d hd
    split
    · refine (updateHistogram_editorInv env _ (updateActions_editorInv env s h) ?_).1
      rw [(updateActions_fields env s).2.1, hd]
      rfl
    · exact h

theorem render_editorInv (env : Env) (s : ColorOpacityMap) (h : EditorInv s) :
    EditorInv (render env s) := by
  unfold render
  dsimp only
  split
  · rename_i v _
    obtain ⟨h1, h2, h3, h4⟩ := h
    rcases h4 with ⟨a, b, c, d⟩ | ⟨a, b, c⟩
    · have hn : Call.updateHistogram ∉ s.log ++ [Call.renderWindowRender v, Call.update v] := by
        simp [d]
      exact ⟨h1, h2, editorFirst_of_not_mem hn, Or.inl ⟨a, b, c, hn⟩⟩
    · exact ⟨h1, h2, editorFirst_append _ h3 c, Or.inr ⟨a, b, List.mem_append_left _ c⟩⟩
  · exact h

theorem imageDataUpdated_editorInv (env : Env) (w : QWidget) (s : ColorOpacityMap)
    (h : EditorInv s) : EditorInv (imageDataUpdated env w s) := by
  unfold imageDataUpdated
  rcases h.2.2.2 with ⟨_, _, c, _⟩ | ⟨a, _, _⟩
  · rw [c w]
    exact h
  · exact (iterate_updateHistogram_editorInv env _ s h a).1

theorem displayDialog_editorInv (env : Env) (s : ColorOpacityMap) (h : EditorInv s) :
    EditorInv (displayDialog env s) ∧ (displayDialog env s).m_comDialog.isSome = true := by
  have key : ∀ t : ColorOpacityMap, EditorInv t → t.m_comDialog.isSome = true →
      EditorInv { updateHistogram env t with
        m_comDialog := (updateHistogram env t).m_comDialog.map fun d => { d with visible := true }
        log := (updateHistogram env t).log ++ [Call.showDialog] } ∧
      ({ updateHistogram env t with
        m_comDialog := (updateHistogram env t).m_comDialog.map fun d => { d with visible := true }
        log := (updateHistogram env t).log ++ [Call.showDialog] } :
          ColorOpacityMap).m_comDialog.isSome = true := by
    intro t ht hd
    obtain ⟨⟨h1, h2, h3, h4⟩, hd'⟩ := updateHistogram_editorInv env t ht hd
    rcases h4 with ⟨hn, _⟩ | ⟨_, hw, hm⟩
    · rw [hn] at hd'
      cases hd'
    · have hd'' : ((updateHistogram env t).m_comDialog.map
          fun d => { d with visible := true }).isSome = true := by
        rw [Option.isSome_map']
        exact hd'
      exact ⟨⟨h1, h2, editorFirst_append _ h3 hm,
        Or.inr ⟨hd'', hw, List.mem_append_left _ hm⟩⟩, hd''⟩
  unfold displayDialog
  dsimp only
  split
  · rename_i hn
    obtain ⟨h1, h2, h3, h4⟩ := h
    rcases h4 with ⟨_, _, _, d⟩ | ⟨a, _, _⟩
    · apply key
      · have hnm : Call.updateHistogram ∉ s.log ++ [Call.newComDialog] := by simp [d]
        exact ⟨h1, h2, editorFirst_of_not_mem hnm, Or.inr ⟨rfl, rfl, by simp⟩⟩
      · rfl
    · rw [hn] at a
      cases a
  · rename_i d hd
    exact key s h (by rw [hd]; rfl)

theorem step_editorInv (mc : MoleculeChange) (e : Event) (s : ColorOpacityMap)
    (h : EditorInv s) : EditorInv (step mc e s) := by
  cases e with
  | setMolecule env mol => exact setMolecule_editorInv env mol s h
  | moleculeChanged env c => exact moleculeChanged_editorInv mc env c s h
  | displayDialog env => exact (displayDialog_editorInv env s h).1
  | render env => exact render_editorInv env s h
  | imageDataUpdated env w => exact imageDataUpdated_editorInv env w s h

theorem reachable_editorInv {mc : MoleculeChange} {s : ColorOpacityMap}
    (h : Reachable mc s) : EditorInv s := by
  induction h with
  | new env => exact new_editorInv env
  | step e _ ih => exact step_editorInv mc e _ ih

/-- `updateActions` then `updateHistogram`, when the spec's policy fails. -/
theorem updateHistogram_updateActions_of_not_policy (env : Env) (s : ColorOpacityMap)
    (h : ¬ EnabledPolicy env s.m_molecule) :
    (∀ a ∈ (updateHistogram env (updateActions env s)).m_actions, a.enabled = false) ∧
    (updateHistogram env (updateActions env s)).m_actions.length = s.m_actions.length ∧
    (updateHistogram env (updateActions env s)).log = s.log ++ [Call.updateHistogram] ∧
    (updateHistogram env (updateActions env s)).nullDeref = s.nullDeref ∧
    ((∀ w, env.activeWidget = some w → w.isVtkGLWidget = false) →
      (updateHistogram env (updateActions env s)).m_activeWidget = s.m_activeWidget ∧
      (updateHistogram env (updateActions env s)).connections = s.connections) := by
  obtain ⟨a1, a2, a3, a4, a5, a6, a7, a8⟩ := updateActions_fields env s
  have h' : ¬ EnabledPolicy env (updateActions env s).m_molecule := by rw [a1]; exact h
  have e := updateHistogram_of_not_policy env (updateActions env s) h'
  obtain ⟨r1, _, _, _, r5, r6⟩ := rebindActiveWidget_fields env
    { updateActions env s with log := (updateActions env s).log ++ [Call.updateHistogram] }
  refine ⟨?_, ?_, ?_, ?_, ?_⟩
  · intro a ha
    rw [(updateHistogram_fields env _).1] at ha
    have hn : ¬ a.enabled = true := fun hb => h (((updateActions_spec env s).2.1 a ha).mp hb)
    cases hb : a.enabled
    · rfl
    · exact absurd hb hn
  · rw [(updateHistogram_fields env _).1]
    exact a8
  · rw [e, r5, a6]
  · rw [e, r6, a7]
  · intro hv
    rw [e, rebindActiveWidget_of_not_vtk env _ hv]
    exact ⟨a4, a5⟩

end Reachability

/-! ## The claims -/

/-- C1, counterexample: a cube of dimensions `(3, 1, 2 ^ 30)` whose vector has
the `3 * 1 * 2 ^ 30` samples the claim asks for. At the in-range sample
`(i, j, k) = (2, 0, 0)` the index read in the cube, `(2 * 1 + 0) * 2 ^ 30 + 0`,
is `2 ^ 31`, beyond the largest `int`; the expression overflows and
`cubeImageData` has no defined result, so no buffer holds the values. -/
theorem cubeImageData_layout_counterexample :
    (mkArray (3 * 1 * 2 ^ 30) (0 : Nat)).size = 3 * 1 * 2 ^ 30 ∧
    (2 < 3 ∧ 0 < 1 ∧ 0 < 2 ^ 30 ∧ ¬ (2 * 1 + 0) * 2 ^ 30 + 0 < 2 ^ 31) ∧
    cubeImageData
        ({ dimensions := (3, 1, 2 ^ 30), min := ((), (), ()), spacing := ((), (), ()),
           data := mkArray (3 * 1 * 2 ^ 30) 0 } : Cube Nat Unit) = none :=
  ⟨Array.size_mkArray _ _, by decide,
    cubeImageData_eq_none _ 2 0 0 (by decide) (by decide) (by decide) (by decide)⟩

/-- C1, amended: for every cube of dimensions `(nx, ny, nz)` whose vector holds
`nx * ny * nz` samples, with `nx * ny * nz ≤ 2 ^ 31` so that every index fits
the C `int` in which the source computes it, `cubeImageData` returns an image
whose buffer holds at index `(k * ny + j) * nx + i` the sample that the cube
holds at its native index `(i * ny + j) * nz + k`, for all `i < nx`, `j < ny`,
`k < nz`. In particular the `(2, 2, 2)` cube with native values `0, 1, ..., 7`
converts to `0, 4, 2, 6, 1, 5, 3, 7`. -/
theorem cubeImageData_layout {α ρ : Type} (cube : Cube α ρ) (nx ny nz : Nat)
    (hdim : cube.dimensions = (nx, ny, nz))
    (hsize : cube.data.size = nx * ny * nz)
    (hint : nx * ny * nz ≤ 2 ^ 31) :
    (∃ img, cubeImageData cube = some img ∧ img.scalars.size = nx * ny * nz ∧
      ∀ i j k, i < nx → j < ny → k < nz →
        ∃ v, cube.data[(i * ny + j) * nz + k]? = some v ∧
          img.scalars[(k * ny + j) * nx + i]? = some (some v)) ∧
    (cubeImageData
        ({ dimensions := (2, 2, 2), min := ((), (), ()), spacing := ((), (), ()),
           data := #[0, 1, 2, 3, 4, 5, 6, 7] } : Cube Nat Unit)).map (fun img => img.scalars)
      = some #[some 0, some 4, some 2, some 6, some 1, some 5, some 3, some 7] := by
  refine ⟨?_, by decide⟩
  have hsize' : cube.data.size =
      cube.dimensions.1 * cube.dimensions.2.1 * cube.dimensions.2.2 := by rw [hdim]; exact hsize
  have hint' : cube.dimensions.1 * cube.dimensions.2.1 * cube.dimensions.2.2 ≤ 2 ^ 31 := by
    rw [hdim]; exact hint
  obtain ⟨img, h1, h2, h3⟩ := cubeImageData_spec cube hsize' hint'
  rw [hdim] at h2 h3
  refine ⟨img, h1, h2, ?_⟩
  intro i j k hi hj hk
  have hlt : (i * ny + j) * nz + k < cube.data.size := by
    rw [hsize]; exact radix_lt hi hj hk
  refine ⟨cube.data[(i * ny + j) * nz + k], Array.getElem?_eq_getElem hlt, ?_⟩
  have h4 := h3 (i, j, k) (mem_loopNest.mpr ⟨hi, hj, hk⟩)
  simp only [vtkIndex, cubeIndex, Array.getElem?_eq_getElem hlt] at h4
  exact h4

/-- Witness for C1: the theorem applied to the `(2, 2, 2)` cube. -/
theorem cubeImageData_layout_witness :
    ((#[0, 1, 2, 3, 4, 5, 6, 7] : Array Nat).size = 2 * 2 * 2 ∧ 2 * 2 * 2 ≤ 2 ^ 31) ∧
    ∃ img, cubeImageData
        ({ dimensions := (2, 2, 2), min := ((), (), ()), spacing := ((), (), ()),
           data := #[0, 1, 2, 3, 4, 5, 6, 7] } : Cube Nat Unit) = some img ∧
      img.scalars.size = 2 * 2 * 2 ∧
      ∀ i j k, i < 2 → j < 2 → k < 2 →
        ∃ v, (#[0, 1, 2, 3, 4, 5, 6, 7] : Array Nat)[(i * 2 + j) * 2 + k]? = some v ∧
          img.scalars[(k * 2 + j) * 2 + i]? = some (some v) :=
  ⟨⟨rfl, by decide⟩,
    (cubeImageData_layout
      ({ dimensions := (2, 2, 2), min := ((), (), ()), spacing := ((), (), ()),
         data := #[0, 1, 2, 3, 4, 5, 6, 7] } : Cube Nat Unit) 2 2 2 rfl rfl (by decide)).1⟩

/-- C2, counterexample: dimensions `(65536, 65536, 1)`. At the in-range sample
`(i, j, k) = (32768, 0, 0)` the index read in the cube,
`(32768 * 65536 + 0) * 1 + 0 = 2 ^ 31`, overflows `int`: the loop nest pairs no
native index with output index `32768`, so its index map is not a bijection of
`[0, 65536 * 65536 * 1)`, and on a cube of these dimensions `cubeImageData` has
no defined result, so no output is a permutation of the input. -/
theorem cubeImageData_bijection_counterexample :
    (none, some 32768) ∈ sampleMoves (65536, 65536, 1) ∧
    (mkArray (65536 * 65536 * 1) (0 : Nat)).size = 65536 * 65536 * 1 ∧
    cubeImageData
        ({ dimensions := (65536, 65536, 1), min := ((), (), ()), spacing := ((), (), ()),
           data := mkArray (65536 * 65536 * 1) 0 } : Cube Nat Unit) = none :=
  ⟨List.mem_map.mpr ⟨(32768, 0, 0),
      mem_loopNest.mpr ⟨by decide, by decide, by decide⟩, by decide⟩,
    Array.size_mkArray _ _,
    cubeImageData_eq_none _ 32768 0 0 (by decide) (by decide) (by decide) (by decide)⟩

/-- C2, amended: for all dimensions `(nx, ny, nz)` with `nx * ny * nz ≤ 2 ^ 31`,
so that every index fits the C `int` in which the source computes it, the `int`
index expressions evaluated by the loop nest of `cubeImageData` pair native
index `(i * ny + j) * nz + k` with output index `(k * ny + j) * nx + i`; every
native index below `nx * ny * nz` is read by exactly one iteration and every
output index below it is written by exactly one iteration, so the pairing is a
bijection of `[0, nx * ny * nz)`. On a cube whose vector holds `nx * ny * nz`
samples the converted buffer holds at each written cell the paired sample, and
its values are a permutation of the cube's values. -/
theorem cubeImageData_bijection (nx ny nz : Nat) (hint : nx * ny * nz ≤ 2 ^ 31) :
    (∀ p, p ∈ sampleMoves (nx, ny, nz) ↔
      ∃ i j k, i < nx ∧ j < ny ∧ k < nz ∧
        p = (some ((i * ny + j) * nz + k), some ((k * ny + j) * nx + i))) ∧
    (∀ p ∈ sampleMoves (nx, ny, nz),
      ∃ n m, p = (some n, some m) ∧ n < nx * ny * nz ∧ m < nx * ny * nz) ∧
    (∀ n, n < nx * ny * nz →
      ((sampleMoves (nx, ny, nz)).map Prod.fst).count (some n) = 1) ∧
    (∀ m, m < nx * ny * nz →
      ((sampleMoves (nx, ny, nz)).map Prod.snd).count (some m) = 1) ∧
    (∀ (α ρ : Type) (cube : Cube α ρ), cube.dimensions = (nx, ny, nz) →
      cube.data.size = nx * ny * nz →
      ∃ img, cubeImageData cube = some img ∧
        (∀ n m, (some n, some m) ∈ sampleMoves (nx, ny, nz) →
          img.scalars[m]? = some (cube.data[n]?)) ∧
        img.scalars.toList.Perm (cube.data.toList.map some)) := by
  have hint' : (nx, ny, nz).1 * (nx, ny, nz).2.1 * (nx, ny, nz).2.2 ≤ 2 ^ 31 := hint
  refine ⟨fun p => mem_sampleMoves hint', ?_, ?_, ?_, ?_⟩
  · intro p hp
    obtain ⟨i, j, k, hi, hj, hk, rfl⟩ := (mem_sampleMoves hint').mp hp
    exact ⟨_, _, rfl, cubeIndex_lt hi hj hk, vtkIndex_lt hi hj hk⟩
  · intro n hn
    rw [sampleMoves_map_fst hint', count_some_map_some]
    exact List.count_eq_one_of_mem (nodup_map_cubeIndex _)
      ((perm_map_cubeIndex (nx, ny, nz)).mem_iff.mpr (List.mem_range.mpr hn))
  · intro m hm
    rw [sampleMoves_map_snd hint', count_some_map_some]
    exact List.count_eq_one_of_mem (nodup_map_vtkIndex _)
      ((perm_map_vtkIndex (nx, ny, nz)).mem_iff.mpr (List.mem_range.mpr hm))
  · intro α ρ cube hdim hsize
    have hsize' : cube.data.size =
        cube.dimensions.1 * cube.dimensions.2.1 * cube.dimensions.2.2 := by
      rw [hdim]; exact hsize
    have hint'' : cube.dimensions.1 * cube.dimensions.2.1 * cube.dimensions.2.2 ≤ 2 ^ 31 := by
      rw [hdim]; exact hint
    obtain ⟨img, h1, h2, h3⟩ := cubeImageData_spec cube hsize' hint''
    refine ⟨img, h1, ?_, reorderLoops_perm hsize' h2 h3⟩
    rw [hdim] at h3
    intro n m hp
    obtain ⟨i, j, k, hi, hj, hk, e⟩ := (mem_sampleMoves hint').mp hp
    simp only [Prod.mk.injEq, Option.some.injEq] at e
    obtain ⟨rfl, rfl⟩ := e
    exact h3 (i, j, k) (mem_loopNest.mpr ⟨hi, hj, hk⟩)

/-- Witness for C2: the theorem applied to the `(2, 2, 2)` cube. -/
theorem cubeImageData_bijection_witness :
    (2 * 2 * 2 ≤ 2 ^ 31 ∧ (#[0, 1, 2, 3, 4, 5, 6, 7] : Array Nat).size = 2 * 2 * 2) ∧
    ∃ img, cubeImageData
        ({ dimensions := (2, 2, 2), min := ((), (), ()), spacing := ((), (), ()),
           data := #[0, 1, 2, 3, 4, 5, 6, 7] } : Cube Nat Unit) = some img ∧
      (∀ n m, (some n, some m) ∈ sampleMoves (2, 2, 2) →
        img.scalars[m]? = some ((#[0, 1, 2, 3, 4, 5, 6, 7] : Array Nat)[n]?)) ∧
      img.scalars.toList.Perm ([0, 1, 2, 3, 4, 5, 6, 7].map some) :=
  ⟨⟨by decide, rfl⟩,
    (cubeImageData_bijection 2 2 2 (by decide)).2.2.2.2 Nat Unit
      { dimensions := (2, 2, 2), min := ((), (), ()), spacing := ((), (), ()),
        data := #[0, 1, 2, 3, 4, 5, 6, 7] } rfl rfl⟩

/-- C3: for every controller state, after `updateActions` runs the plugin
exposes the same number of actions and every one of them is enabled if and only
if the active widget is a volume-capable (VTK) surface, a model is attached and
that model has at least one scalar field; in particular a model with zero
scalar fields always leaves every action disabled. -/
theorem updateActions_enabled_iff (env : Env) (s : ColorOpacityMap) :
    (updateActions env s).m_actions.length = s.m_actions.length ∧
    (∀ a ∈ (updateActions env s).m_actions,
      (a.enabled = true ↔ EnabledPolicy env s.m_molecule)) ∧
    (∀ m, s.m_molecule = some m → env.cubeCount m = 0 →
      ∀ a ∈ (updateActions env s).m_actions, a.enabled = false) :=
  updateActions_spec env s

/-- Witness for C3: a VTK widget is active and the attached molecule has no
cube; the action of the plugin comes out disabled. -/
theorem updateActions_enabled_iff_witness :
    ((setMolecule ⟨some ⟨1, true⟩, fun _ => 0, fun _ => true⟩ (some ⟨7⟩)
        (ColorOpacityMap.new ⟨some ⟨1, true⟩, fun _ => 0, fun _ => true⟩)).m_molecule = some ⟨7⟩ ∧
      ((⟨some ⟨1, true⟩, fun _ => 0, fun _ => true⟩ : Env).cubeCount ⟨7⟩ = 0)) ∧
    ∀ a ∈ (updateActions ⟨some ⟨1, true⟩, fun _ => 0, fun _ => true⟩
      (setMolecule ⟨some ⟨1, true⟩, fun _ => 0, fun _ => true⟩ (some ⟨7⟩)
        (ColorOpacityMap.new ⟨some ⟨1, true⟩, fun _ => 0, fun _ => true⟩))).m_actions,
      a.enabled = false :=
  ⟨⟨rfl, rfl⟩,
    (updateActions_enabled_iff ⟨some ⟨1, true⟩, fun _ => 0, fun _ => true⟩
      (setMolecule ⟨some ⟨1, true⟩, fun _ => 0, fun _ => true⟩ (some ⟨7⟩)
        (ColorOpacityMap.new ⟨some ⟨1, true⟩, fun _ => 0, fun _ => true⟩))).2.2 ⟨7⟩ rfl rfl⟩

/-- C4, counterexample: a molecule without cubes is attached while a VTK widget
is active and the editor has never been opened; the molecule then gains a cube
and reports a change of kind `Added`. `moleculeChanged` returns at its first
guard, and the action stays disabled although the policy now holds. -/
theorem moleculeChanged_recheck_counterexample :
    Reachable ⟨1024, 2048⟩
      (setMolecule ⟨some ⟨1, true⟩, fun _ => 0, fun _ => true⟩ (some ⟨7⟩)
        (ColorOpacityMap.new ⟨some ⟨1, true⟩, fun _ => 0, fun _ => true⟩)) ∧
    ¬ ∀ a ∈ (moleculeChanged ⟨1024, 2048⟩ ⟨some ⟨1, true⟩, fun _ => 1, fun _ => true⟩ 1024
        (setMolecule ⟨some ⟨1, true⟩, fun _ => 0, fun _ => true⟩ (some ⟨7⟩)
          (ColorOpacityMap.new ⟨some ⟨1, true⟩, fun _ => 0, fun _ => true⟩))).m_actions,
      (a.enabled = true ↔
        EnabledPolicy ⟨some ⟨1, true⟩, fun _ => 1, fun _ => true⟩
          (moleculeChanged ⟨1024, 2048⟩ ⟨some ⟨1, true⟩, fun _ => 1, fun _ => true⟩ 1024
            (setMolecule ⟨some ⟨1, true⟩, fun _ => 0, fun _ => true⟩ (some ⟨7⟩)
              (ColorOpacityMap.new
                ⟨some ⟨1, true⟩, fun _ => 0, fun _ => true⟩))).m_molecule) := by
  refine ⟨Reachable.step (Event.setMolecule _ _) (Reachable.new _), ?_⟩
  intro h
  have h1 := (h ⟨"Edit Color Opacity Map…", 70, false⟩ (by decide)).mpr
    ⟨⟨⟨1, true⟩, rfl, rfl⟩, ⟨7⟩, rfl, Nat.le_refl 1⟩
  cases h1

/-- C4, amended: `moleculeChanged` re-runs the enabled/disabled check only when
the editor dialog exists and the change kind includes `Added` or `Removed`; then,
once it returns, every action is enabled if and only if there is a
volume-capable active surface, an attached model, and that model has at least
one scalar field. When the editor has never been opened, or the change kind
includes neither `Added` nor `Removed`, it returns without changing anything. -/
theorem moleculeChanged_recheck (mc : MoleculeChange) (env : Env) (c : Nat)
    (s : ColorOpacityMap) :
    (s.m_comDialog.isSome = true → (c &&& mc.Added ≠ 0 ∨ c &&& mc.Removed ≠ 0) →
      (moleculeChanged mc env c s).m_actions.length = s.m_actions.length ∧
      ∀ a ∈ (moleculeChanged mc env c s).m_actions,
        (a.enabled = true ↔ EnabledPolicy env (moleculeChanged mc env c s).m_molecule)) ∧
    (s.m_comDialog = none ∨ (c &&& mc.Added = 0 ∧ c &&& mc.Removed = 0) →
      moleculeChanged mc env c s = s) := by
  constructor
  · intro hd hc
    obtain ⟨d, hd'⟩ := Option.isSome_iff_exists.mp hd
    have e : moleculeChanged mc env c s = updateHistogram env (updateActions env s) := by
      simp only [moleculeChanged, hd', if_pos hc]
    rw [e]
    obtain ⟨f1, f2, _, _⟩ := updateHistogram_fields env (updateActions env s)
    rw [f1, f2, (updateActions_fields env s).1]
    exact ⟨(updateActions_spec env s).1, (updateActions_spec env s).2.1⟩
  · rintro (hd | ⟨h1, h2⟩)
    · simp only [moleculeChanged, hd]
    · unfold moleculeChanged
      split
      · rfl
      · rw [if_neg]
        rintro (h | h)
        · exact h h1
        · exact h h2

/-- Witness for C4: the editor is open on a molecule with one cube, the cube
count drops to zero and the molecule reports `Removed`. -/
theorem moleculeChanged_recheck_witness :
    ((displayDialog ⟨some ⟨1, true⟩, fun _ => 1, fun _ => true⟩
        (setMolecule ⟨some ⟨1, true⟩, fun _ => 1, fun _ => true⟩ (some ⟨7⟩)
          (ColorOpacityMap.new ⟨some ⟨1, true⟩, fun _ => 1, fun _ => true⟩))).m_comDialog.isSome = true ∧
      (2048 &&& (⟨1024, 2048⟩ : MoleculeChange).Added ≠ 0 ∨
        2048 &&& (⟨1024, 2048⟩ : MoleculeChange).Removed ≠ 0)) ∧
    ∀ a ∈ (moleculeChanged ⟨1024, 2048⟩ ⟨some ⟨1, true⟩, fun _ => 0, fun _ => true⟩ 2048
      (displayDialog ⟨some ⟨1, true⟩, fun _ => 1, fun _ => true⟩
        (setMolecule ⟨some ⟨1, true⟩, fun _ => 1, fun _ => true⟩ (some ⟨7⟩)
          (ColorOpacityMap.new ⟨some ⟨1, true⟩, fun _ => 1, fun _ => true⟩)))).m_actions,
      (a.enabled = true ↔
        EnabledPolicy ⟨some ⟨1, true⟩, fun _ => 0, fun _ => true⟩
          (moleculeChanged ⟨1024, 2048⟩ ⟨some ⟨1, true⟩, fun _ => 0, fun _ => true⟩ 2048
            (displayDialog ⟨some ⟨1, true⟩, fun _ => 1, fun _ => true⟩
        (setMolecule ⟨some ⟨1, true⟩, fun _ => 1, fun _ => true⟩ (some ⟨7⟩)
          (ColorOpacityMap.new ⟨some ⟨1, true⟩, fun _ => 1, fun _ => true⟩)))).m_molecule) :=
  ⟨⟨rfl, Or.inr (by decide)⟩,
    ((moleculeChanged_recheck ⟨1024, 2048⟩ ⟨some ⟨1, true⟩, fun _ => 0, fun _ => true⟩ 2048
      (displayDialog ⟨some ⟨1, true⟩, fun _ => 1, fun _ => true⟩
        (setMolecule ⟨some ⟨1, true⟩, fun _ => 1, fun _ => true⟩ (some ⟨7⟩)
          (ColorOpacityMap.new ⟨some ⟨1, true⟩, fun _ => 1, fun _ => true⟩)))).1
      rfl (Or.inr (by decide))).2⟩

/-- C5, evaluation at the failing input: on a freshly constructed plugin the
binding update runs with VTK widget 1 active, then widget 2, then widget 1
again. Widget 1 ends with one subscription and is the bound surface, but the
subscription of widget 2 is still live: the `disconnect` in `updateHistogram`
names the newly active widget, not the previously bound one. -/
theorem updateHistogram_switch_back_subscriptions :
    subscriptions
      (updateHistogram ⟨some ⟨1, true⟩, fun _ => 0, fun _ => true⟩
        (updateHistogram ⟨some ⟨2, true⟩, fun _ => 0, fun _ => true⟩
          (updateHistogram ⟨some ⟨1, true⟩, fun _ => 0, fun _ => true⟩
            (ColorOpacityMap.new ⟨none, fun _ => 0, fun _ => true⟩)))) ⟨1, true⟩ = 1 ∧
    subscriptions
      (updateHistogram ⟨some ⟨1, true⟩, fun _ => 0, fun _ => true⟩
        (updateHistogram ⟨some ⟨2, true⟩, fun _ => 0, fun _ => true⟩
          (updateHistogram ⟨some ⟨1, true⟩, fun _ => 0, fun _ => true⟩
            (ColorOpacityMap.new ⟨none, fun _ => 0, fun _ => true⟩)))) ⟨2, true⟩ = 1 ∧
    (updateHistogram ⟨some ⟨1, true⟩, fun _ => 0, fun _ => true⟩
      (updateHistogram ⟨some ⟨2, true⟩, fun _ => 0, fun _ => true⟩
        (updateHistogram ⟨some ⟨1, true⟩, fun _ => 0, fun _ => true⟩
          (ColorOpacityMap.new ⟨none, fun _ => 0, fun _ => true⟩)))).m_activeWidget
      = some ⟨1, true⟩ := by
  decide

/-- C6: in every state reached from the freshly constructed plugin by any
sequence of binding updates (`updateHistogram` run with arbitrary active
widgets), each surface carries at most one `imageDataUpdated` subscription to
the plugin; and from any such state, running the update twice in a row with the
same volume-capable surface `A` leaves exactly one subscription on `A`, after
the first run as after the second. -/
theorem updateHistogram_at_most_one_subscription (env0 : Env) (envs : List Env) :
    (∀ w, subscriptions
      (envs.foldl (fun s e => updateHistogram e s) (ColorOpacityMap.new env0)) w ≤ 1) ∧
    ∀ (env1 env2 : Env) (A : QWidget), A.isVtkGLWidget = true →
      env1.activeWidget = some A → env2.activeWidget = some A →
      subscriptions (updateHistogram env1
        (envs.foldl (fun s e => updateHistogram e s) (ColorOpacityMap.new env0))) A = 1 ∧
      subscriptions (updateHistogram env2 (updateHistogram env1
        (envs.foldl (fun s e => updateHistogram e s) (ColorOpacityMap.new env0)))) A = 1 := by
  have hs := foldl_updateHistogram_subscriptionInv envs _ (new_subscriptionInv env0)
  refine ⟨hs.2.2, ?_⟩
  intro env1 env2 A hA h1 h2
  have hs1 := updateHistogram_subscriptionInv env1 _ hs
  have hs2 := updateHistogram_subscriptionInv env2 _ hs1
  exact ⟨hs1.2.1 A (updateHistogram_bound env1 _ A h1 hA),
    hs2.2.1 A (updateHistogram_bound env2 _ A h2 hA)⟩

/-- Witness for C6: the active surface goes 1, 2, then 1 twice in a row. -/
theorem updateHistogram_at_most_one_subscription_witness :
    subscriptions (updateHistogram ⟨some ⟨1, true⟩, fun _ => 0, fun _ => true⟩
      ([(⟨some ⟨1, true⟩, fun _ => 0, fun _ => true⟩ : Env),
        ⟨some ⟨2, true⟩, fun _ => 0, fun _ => true⟩].foldl
          (fun s e => updateHistogram e s)
          (ColorOpacityMap.new ⟨none, fun _ => 0, fun _ => true⟩))) ⟨1, true⟩ = 1 ∧
    subscriptions (updateHistogram ⟨some ⟨1, true⟩, fun _ => 0, fun _ => true⟩
      (updateHistogram ⟨some ⟨1, true⟩, fun _ => 0, fun _ => true⟩
      ([(⟨some ⟨1, true⟩, fun _ => 0, fun _ => true⟩ : Env),
        ⟨some ⟨2, true⟩, fun _ => 0, fun _ => true⟩].foldl
          (fun s e => updateHistogram e s)
          (ColorOpacityMap.new ⟨none, fun _ => 0, fun _ => true⟩)))) ⟨1, true⟩ = 1 :=
  (updateHistogram_at_most_one_subscription ⟨none, fun _ => 0, fun _ => true⟩
    [⟨some ⟨1, true⟩, fun _ => 0, fun _ => true⟩, ⟨some ⟨2, true⟩, fun _ => 0, fun _ => true⟩]).2
    ⟨some ⟨1, true⟩, fun _ => 0, fun _ => true⟩ ⟨some ⟨1, true⟩, fun _ => 0, fun _ => true⟩
    ⟨1, true⟩ rfl rfl rfl

/-- C7, counterexample: the editor was opened while VTK widget 1 was active,
so widget 1 is the bound surface; the user then moves to VTK widget 2 and
`render` runs: the redraw goes to widget 2, not to the bound widget 1. And on a
freshly constructed plugin, where nothing is bound, `render` still redraws the
active VTK widget. -/
theorem render_bound_surface_counterexample :
    (displayDialog ⟨some ⟨1, true⟩, fun _ => 1, fun _ => true⟩
      (setMolecule ⟨some ⟨1, true⟩, fun _ => 1, fun _ => true⟩ (some ⟨7⟩)
        (ColorOpacityMap.new ⟨some ⟨1, true⟩, fun _ => 1, fun _ => true⟩))).m_activeWidget
      = some ⟨1, true⟩ ∧
    (render ⟨some ⟨2, true⟩, fun _ => 1, fun _ => true⟩
      (displayDialog ⟨some ⟨1, true⟩, fun _ => 1, fun _ => true⟩
        (setMolecule ⟨some ⟨1, true⟩, fun _ => 1, fun _ => true⟩ (some ⟨7⟩)
          (ColorOpacityMap.new ⟨some ⟨1, true⟩, fun _ => 1, fun _ => true⟩)))).log
      = (displayDialog ⟨some ⟨1, true⟩, fun _ => 1, fun _ => true⟩
          (setMolecule ⟨some ⟨1, true⟩, fun _ => 1, fun _ => true⟩ (some ⟨7⟩)
            (ColorOpacityMap.new ⟨some ⟨1, true⟩, fun _ => 1, fun _ => true⟩))).log
        ++ [Call.renderWindowRender ⟨2, true⟩, Call.update ⟨2, true⟩] ∧
    (ColorOpacityMap.new ⟨some ⟨1, true⟩, fun _ => 1, fun _ => true⟩).m_activeWidget = none ∧
    (render ⟨some ⟨1, true⟩, fun _ => 1, fun _ => true⟩
      (ColorOpacityMap.new ⟨some ⟨1, true⟩, fun _ => 1, fun _ => true⟩)).log
      = [Call.renderWindowRender ⟨1, true⟩, Call.update ⟨1, true⟩] := by
  decide

/-- C7, amended: for every controller state, `render` issues a redraw
(`renderWindow()->Render()` then `update()`) on exactly the currently active
widget when that widget is a volume-capable surface, whether or not it is the
bound one, and does nothing otherwise; it never changes the binding. So the
redraw goes to the bound surface exactly when the bound surface is the active
widget. -/
theorem render_active_surface (env : Env) (s : ColorOpacityMap) :
    (∀ w, env.activeWidget = some w → w.isVtkGLWidget = true →
      (render env s).log = s.log ++ [Call.renderWindowRender w, Call.update w]) ∧
    ((∀ w, env.activeWidget = some w → w.isVtkGLWidget = false) → render env s = s) ∧
    (render env s).m_activeWidget = s.m_activeWidget ∧
    (render env s).connections = s.connections ∧
    (∀ w, s.m_activeWidget = some w → env.activeWidget = some w → w.isVtkGLWidget = true →
      (render env s).log = s.log ++ [Call.renderWindowRender w, Call.update w]) := by
  have key : ∀ w, env.activeWidget = some w → w.isVtkGLWidget = true →
      (render env s).log = s.log ++ [Call.renderWindowRender w, Call.update w] := by
    intro w hw hv
    simp only [render, qobject_cast_vtkGLWidget, hw, hv, if_true]
  refine ⟨key, ?_, ?_, ?_, fun w _ hw hv => key w hw hv⟩
  · intro h
    unfold render qobject_cast_vtkGLWidget
    dsimp only
    split
    · rename_i v hv
      split at hv
      · rename_i w hw
        rw [h w hw] at hv
        simp at hv
      · cases hv
    · rfl
  · unfold render
    dsimp only
    split <;> rfl
  · unfold render
    dsimp only
    split <;> rfl

/-- Witness for C7: nothing is bound, a VTK widget is active. -/
theorem render_active_surface_witness :
    (render ⟨some ⟨1, true⟩, fun _ => 1, fun _ => true⟩
      (ColorOpacityMap.new ⟨some ⟨1, true⟩, fun _ => 1, fun _ => true⟩)).log
      = (ColorOpacityMap.new ⟨some ⟨1, true⟩, fun _ => 1, fun _ => true⟩).log
        ++ [Call.renderWindowRender ⟨1, true⟩, Call.update ⟨1, true⟩] :=
  (render_active_surface ⟨some ⟨1, true⟩, fun _ => 1, fun _ => true⟩
    (ColorOpacityMap.new ⟨some ⟨1, true⟩, fun _ => 1, fun _ => true⟩)).1 ⟨1, true⟩ rfl rfl

/-- C8, counterexample: the editor is open and bound to VTK widget 1; the
active widget becomes widget 3, which is no `vtkGLWidget`, and the update runs
(`updateActions`, then `updateHistogram`). Widget 1 is still recorded as bound
and still carries its subscription: the state is not `Unbound`. -/
theorem updateHistogram_unbind_counterexample :
    (updateHistogram ⟨some ⟨3, false⟩, fun _ => 1, fun _ => true⟩
      (updateActions ⟨some ⟨3, false⟩, fun _ => 1, fun _ => true⟩
        (displayDialog ⟨some ⟨1, true⟩, fun _ => 1, fun _ => true⟩
          (setMolecule ⟨some ⟨1, true⟩, fun _ => 1, fun _ => true⟩ (some ⟨7⟩)
            (ColorOpacityMap.new
              ⟨some ⟨1, true⟩, fun _ => 1, fun _ => true⟩))))).m_activeWidget
      = some ⟨1, true⟩ ∧
    subscriptions
      (updateHistogram ⟨some ⟨3, false⟩, fun _ => 1, fun _ => true⟩
        (updateActions ⟨some ⟨3, false⟩, fun _ => 1, fun _ => true⟩
          (displayDialog ⟨some ⟨1, true⟩, fun _ => 1, fun _ => true⟩
            (setMolecule ⟨some ⟨1, true⟩, fun _ => 1, fun _ => true⟩ (some ⟨7⟩)
              (ColorOpacityMap.new ⟨some ⟨1, true⟩, fun _ => 1, fun _ => true⟩)))))
      ⟨1, true⟩ = 1 := by
  decide

/-- C8, amended: for every controller state, when the update is processed
(`updateActions`, then `updateHistogram`) and the active widget is not a
volume-capable surface, or no model is attached, or the model has zero scalar
fields, all user-facing actions are disabled and nothing is recomputed or pushed
to the editor (the log only gains the entry into `updateHistogram`). The code
has no transition to `Unbound`: when the active widget is not a volume-capable
surface, the recorded bound surface and every subscription stay as they were. -/
theorem updateHistogram_disabled (env : Env) (s : ColorOpacityMap)
    (h : ¬ EnabledPolicy env s.m_molecule) :
    (∀ a ∈ (updateHistogram env (updateActions env s)).m_actions, a.enabled = false) ∧
    (updateHistogram env (updateActions env s)).m_actions.length = s.m_actions.length ∧
    (updateHistogram env (updateActions env s)).log = s.log ++ [Call.updateHistogram] ∧
    (updateHistogram env (updateActions env s)).nullDeref = s.nullDeref ∧
    ((∀ w, env.activeWidget = some w → w.isVtkGLWidget = false) →
      (updateHistogram env (updateActions env s)).m_activeWidget = s.m_activeWidget ∧
      (updateHistogram env (updateActions env s)).connections = s.connections) :=
  updateHistogram_updateActions_of_not_policy env s h

/-- Witness for C8: the editor is bound to VTK widget 1 and the active widget
becomes widget 3, which is no `vtkGLWidget`. -/
theorem updateHistogram_disabled_witness :
    (¬ EnabledPolicy ⟨some ⟨3, false⟩, fun _ => 1, fun _ => true⟩
      (displayDialog ⟨some ⟨1, true⟩, fun _ => 1, fun _ => true⟩
        (setMolecule ⟨some ⟨1, true⟩, fun _ => 1, fun _ => true⟩ (some ⟨7⟩)
          (ColorOpacityMap.new ⟨some ⟨1, true⟩, fun _ => 1, fun _ => true⟩))).m_molecule) ∧
    ∀ a ∈ (updateHistogram ⟨some ⟨3, false⟩, fun _ => 1, fun _ => true⟩
      (updateActions ⟨some ⟨3, false⟩, fun _ => 1, fun _ => true⟩
      (displayDialog ⟨some ⟨1, true⟩, fun _ => 1, fun _ => true⟩
        (setMolecule ⟨some ⟨1, true⟩, fun _ => 1, fun _ => true⟩ (some ⟨7⟩)
          (ColorOpacityMap.new ⟨some ⟨1, true⟩, fun _ => 1, fun _ => true⟩))))).m_actions,
      a.enabled = false :=
  ⟨(by
      rintro ⟨⟨w, hw, hv⟩, _⟩
      cases hw
      cases hv),
    (updateHistogram_disabled ⟨some ⟨3, false⟩, fun _ => 1, fun _ => true⟩
      (displayDialog ⟨some ⟨1, true⟩, fun _ => 1, fun _ => true⟩
        (setMolecule ⟨some ⟨1, true⟩, fun _ => 1, fun _ => true⟩ (some ⟨7⟩)
          (ColorOpacityMap.new ⟨some ⟨1, true⟩, fun _ => 1, fun _ => true⟩)))
      (by
        rintro ⟨⟨w, hw, hv⟩, _⟩
        cases hw
        cases hv)).1⟩

/-- C9: for every reachable state in which a surface is bound, handling a
model-changed event of kind `Removed` at a moment when the attached model has
no scalar field leaves the plugin's action disabled, and performs no histogram
recomputation and no push of histogram data or transfer function: the call log
only gains the entry into `updateHistogram`. -/
theorem moleculeChanged_removed_to_zero (mc : MoleculeChange) (env : Env) (c : Nat)
    (s : ColorOpacityMap) (hr : Reachable mc s) (hb : s.m_activeWidget.isSome = true)
    (hc : c &&& mc.Removed ≠ 0) (h0 : ∀ m, s.m_molecule = some m → env.cubeCount m = 0) :
    (∀ a ∈ (moleculeChanged mc env c s).m_actions, a.enabled = false) ∧
    (moleculeChanged mc env c s).m_actions.length = 1 ∧
    (moleculeChanged mc env c s).log = s.log ++ [Call.updateHistogram] ∧
    (moleculeChanged mc env c s).nullDeref = false := by
  obtain ⟨h1, h2, _, h4⟩ := reachable_editorInv hr
  rcases h4 with ⟨_, b, _, _⟩ | ⟨a, _, _⟩
  · rw [b] at hb
    cases hb
  · obtain ⟨d, hd⟩ := Option.isSome_iff_exists.mp a
    have e : moleculeChanged mc env c s = updateHistogram env (updateActions env s) := by
      simp only [moleculeChanged, hd, if_pos (Or.inr hc : c &&& mc.Added ≠ 0 ∨ c &&& mc.Removed ≠ 0)]
    have hp : ¬ EnabledPolicy env s.m_molecule := by
      rintro ⟨_, m, hm, hc'⟩
      have := h0 m hm
      omega
    obtain ⟨k1, k2, k3, k4, _⟩ := updateHistogram_updateActions_of_not_policy env s hp
    rw [e]
    exact ⟨k1, by rw [k2, h2], k3, by rw [k4, h1]⟩

/-- Witness for C9: the editor is open and bound to VTK widget 1 on a molecule
with one cube; the cube is removed and the molecule reports `Removed`. -/
theorem moleculeChanged_removed_to_zero_witness :
    (moleculeChanged ⟨1024, 2048⟩ ⟨some ⟨1, true⟩, fun _ => 0, fun _ => true⟩ 2048
      (displayDialog ⟨some ⟨1, true⟩, fun _ => 1, fun _ => true⟩
        (setMolecule ⟨some ⟨1, true⟩, fun _ => 1, fun _ => true⟩ (some ⟨7⟩)
          (ColorOpacityMap.new ⟨some ⟨1, true⟩, fun _ => 1, fun _ => true⟩)))).log
      = (displayDialog ⟨some ⟨1, true⟩, fun _ => 1, fun _ => true⟩
          (setMolecule ⟨some ⟨1, true⟩, fun _ => 1, fun _ => true⟩ (some ⟨7⟩)
            (ColorOpacityMap.new ⟨some ⟨1, true⟩, fun _ => 1, fun _ => true⟩))).log
        ++ [Call.updateHistogram] :=
  (moleculeChanged_removed_to_zero ⟨1024, 2048⟩ ⟨some ⟨1, true⟩, fun _ => 0, fun _ => true⟩ 2048
    (displayDialog ⟨some ⟨1, true⟩, fun _ => 1, fun _ => true⟩
      (setMolecule ⟨some ⟨1, true⟩, fun _ => 1, fun _ => true⟩ (some ⟨7⟩)
        (ColorOpacityMap.new ⟨some ⟨1, true⟩, fun _ => 1, fun _ => true⟩)))
    (Reachable.step (Event.displayDialog ⟨some ⟨1, true⟩, fun _ => 1, fun _ => true⟩)
      (Reachable.step
        (Event.setMolecule ⟨some ⟨1, true⟩, fun _ => 1, fun _ => true⟩ (some ⟨7⟩))
        (Reachable.new ⟨some ⟨1, true⟩, fun _ => 1, fun _ => true⟩)))
    rfl (by decide) (fun _ _ => rfl)).2.2.1

/-- C10: in every state reachable from the constructor by any sequence of
`setMolecule`, `moleculeChanged`, `displayDialog`, `render` and deliveries of
`imageDataUpdated` to the connected slot, every entry into `updateHistogram`
recorded in the call log comes after the creation of the editor dialog; a bound
surface or a live surface subscription implies that the editor dialog and its
histogram widget exist; and no call through an unset `m_histogramWidget` has
happened. -/
theorem updateHistogram_after_editor (mc : MoleculeChange) (s : ColorOpacityMap)
    (h : Reachable mc s) :
    (∀ pre post, s.log = pre ++ Call.updateHistogram :: post → Call.newComDialog ∈ pre) ∧
    ((s.m_activeWidget.isSome = true ∨ ∃ w, 0 < subscriptions s w) →
      s.m_comDialog.isSome = true ∧ s.m_histogramWidget.isSome = true) ∧
    s.nullDeref = false := by
  obtain ⟨h1, _, h3, h4⟩ := reachable_editorInv h
  refine ⟨h3, ?_, h1⟩
  intro hb
  rcases h4 with ⟨_, b, c, _⟩ | ⟨a, b, _⟩
  · rcases hb with hb | ⟨w, hw⟩
    · rw [b] at hb
      cases hb
    · rw [c w] at hw
      exact absurd hw (Nat.lt_irrefl 0)
  · exact ⟨a, b⟩

/-- Witness for C10: a molecule with one cube is attached, the editor is opened
on VTK widget 1, and widget 1 then reports new image data. -/
theorem updateHistogram_after_editor_witness :
    (imageDataUpdated ⟨some ⟨1, true⟩, fun _ => 1, fun _ => true⟩ ⟨1, true⟩
      (displayDialog ⟨some ⟨1, true⟩, fun _ => 1, fun _ => true⟩
        (setMolecule ⟨some ⟨1, true⟩, fun _ => 1, fun _ => true⟩ (some ⟨7⟩)
          (ColorOpacityMap.new ⟨some ⟨1, true⟩, fun _ => 1, fun _ => true⟩)))).nullDeref
      = false :=
  (updateHistogram_after_editor ⟨1024, 2048⟩ _
    (Reachable.step (Event.imageDataUpdated ⟨some ⟨1, true⟩, fun _ => 1, fun _ => true⟩ ⟨1, true⟩)
      (Reachable.step (Event.displayDialog ⟨some ⟨1, true⟩, fun _ => 1, fun _ => true⟩)
        (Reachable.step
          (Event.setMolecule ⟨some ⟨1, true⟩, fun _ => 1, fun _ => true⟩ (some ⟨7⟩))
          (Reachable.new ⟨some ⟨1, true⟩, fun _ => 1, fun _ => true⟩))))).2.2

end Avogadro
